import Mathlib

/-!
# Verification of the KiCad board netlist updater

Shallow embedding of `pcbnew/netlist_reader/board_netlist_updater.cpp`
(class `BOARD_NETLIST_UPDATER`) and proofs of the specified properties.

Modelling conventions:
* `wxString` is `String`; `wxString::CmpNoCase` is compared through `toLower`.
* A pad's net reference is represented by the net *name* (`""` means the
  unconnected sentinel, net code 0, whose net name is the empty string);
  `SetNetCode(NETINFO_LIST::UNCONNECTED)` therefore sets the name to `""`.
* `std::map`s are association lists with insert-or-overwrite semantics.
* Object identity (C++ pointers) is replaced by stable integer ids for
  footprints and by `(footprint id, pad index)` pairs for pads.
* The reporter is an in-order list of `(severity, message)` pairs; messages
  keep their identifying payloads.  `ReportTail` entries go to a separate
  tail list, since they are summary formatting, not change records.
* The `BOARD_COMMIT` transaction is modelled from the spec (external
  collaborator, `Add`/`Modify`/`Remove`/`Push` applied atomically outside
  dry run): staged footprint additions and removals and staged net
  additions are applied to the board at `Push`; `Modify`/`Modified`
  entries only capture undo snapshots and have no effect inside the pass,
  so they are not tracked.
-/

namespace KicadNetlist

/-- ASCII lower-casing of one character (by code point, structurally
computable). -/
def lowerChar (c : Char) : Char :=
  if 65 ≤ c.toNat ∧ c.toNat ≤ 90 then Char.ofNat (c.toNat + 32) else c

/-- Case-insensitive string equality, modelling `wxString::CmpNoCase(...) == 0`. -/
def eqNoCase (a b : String) : Bool :=
  a.data.map lowerChar = b.data.map lowerChar

/-- Lexicographic (by code point) strict order on character lists. -/
def charsLt : List Char → List Char → Bool
  | [], [] => false
  | [], _ :: _ => true
  | _ :: _, [] => false
  | a :: as, b :: bs =>
      if a.toNat < b.toNat then true
      else if b.toNat < a.toNat then false
      else charsLt as bs

/-- Lexicographic strict order on strings (`wxString::operator<`). -/
def strLt (a b : String) : Bool :=
  charsLt a.data b.data

/-- Report severities (`RPT_SEVERITY_*`). -/
inductive Severity where
  | info
  | action
  | warning
  | error
deriving DecidableEq, Repr

/-- Reporter messages, with the payloads that identify them. -/
inductive Msg where
  | processing (ref fpid : String)
  | cannotAddNoFootprint (ref : String)
  | cannotAddNotFound (ref fpid : String)
  | addFootprint (ref fpid : String)
  | cannotUpdateNoFootprint (ref : String)
  | cannotUpdateNotFound (ref fpid : String)
  | changeFootprint (ref oldFpid newFpid : String)
  | changeReference (oldRef newRef : String)
  | changeValue (ref oldV newV : String)
  | updatePath (ref oldP newP : String)
  | updateProperties (ref : String)
  | setExcludeFromBom (ref : String)
  | removeExcludeFromBom (ref : String)
  | disconnectPin (ref pad : String)
  | noNetForPad (ref pad : String)
  | addNet (net : String)
  | reconnectPin (ref pad oldNet newNet : String)
  | connectPin (ref pad net : String)
  | reconnectVia (oldNet newNet : String)
  | viaUnknownNet (net : String)
  | reconnectZone (oldNet newNet : String)
  | zoneNoPads (net : String)
  | removeSinglePadNet (net : String)
  | padNotFound (ref pad fpid : String)
  | multipleFootprints (ref : String)
  | cannotRemoveLocked (ref : String)
  | removeFootprint (ref : String)
  | removeUnusedNet (net : String)
  | totalWarnings (warnings errors : Nat)
  | blank
deriving DecidableEq, Repr

/-- A pad (class `PAD`), with the fields this translation unit uses. -/
structure Pad where
  name : String
  pinFunction : String
  pinType : String
  /-- Name of the referenced net; `""` is the unconnected sentinel (code 0). -/
  netname : String
  onCopper : Bool
  locked : Bool
deriving DecidableEq, Repr

/-- A footprint (class `FOOTPRINT`).  `id` is a stable identity standing in
for the C++ object pointer. -/
structure Footprint where
  id : Nat
  reference : String
  value : String
  path : String
  fpid : String
  props : List (String × String)
  boardOnly : Bool
  excludeFromBom : Bool
  locked : Bool
  pads : List Pad
  pos : Int × Int
deriving DecidableEq, Repr

/-- A net registry entry (class `NETINFO_ITEM`).  The sentinel net
(code 0) is the entry whose name is `""`. -/
structure Net where
  name : String
  isCurrent : Bool
deriving DecidableEq, Repr

/-- A copper zone (class `ZONE`), with the fields the updater reads. -/
structure Zone where
  netname : String
  onCopper : Bool
  ruleArea : Bool
deriving DecidableEq, Repr

/-- A track segment; the updater only looks at vias (`PCB_VIA_T`). -/
structure Track where
  isVia : Bool
  netname : String
deriving DecidableEq, Repr

/-- The board (class `BOARD`), restricted to the state the updater touches. -/
structure Board where
  footprints : List Footprint
  nets : List Net
  zones : List Zone
  tracks : List Track
deriving DecidableEq, Repr

/-- One pin binding of a netlist component (class `COMPONENT_NET`).
`pinName = ""` encodes the invalid/empty `COMPONENT_NET` returned when a
pad name has no entry (`COMPONENT_NET::IsValid`). -/
structure ComponentNet where
  pinName : String
  netName : String
  pinFunction : String
  pinType : String
deriving DecidableEq, Repr

/-- A netlist component (class `COMPONENT`). -/
structure Component where
  reference : String
  value : String
  path : String
  fpid : String
  props : List (String × String)
  nets : List ComponentNet
deriving DecidableEq, Repr

/-- Recognized updater options (`BOARD_NETLIST_UPDATER` setters). -/
structure Options where
  deleteSinglePadNets : Bool
  deleteUnusedComponents : Bool
  isDryRun : Bool
  replaceFootprints : Bool
  lookupByTimestamp : Bool
  warnForNoNetPads : Bool
deriving DecidableEq, Repr

/-- A stable handle of a board pad: footprint id and pad index. -/
abbrev PadRef := Nat × Nat

/-- External collaborators of the updater, abstracted as data:
the footprint library loader, the connectivity snapshot used by
`cacheCopperZoneConnections` (pads connected to the zone at index `i`),
and the frame/page queries used when placing new footprints. -/
structure Deps where
  loadFootprint : String → Option Footprint
  zoneConnectedPads : Nat → List PadRef
  addUnlockedPads : Bool
  boardIsEmpty : Bool
  bboxCentreX : Int
  bboxBottom : Int
  bboxWidth : Int
  bboxHeight : Int
  pageWidth : Int
  pageHeight : Int

/-- The whole mutable state of one `UpdateNetlist` pass: the board plus the
updater's member caches, counters, report and staged commit. -/
structure UpdState where
  board : Board
  report : List (Severity × Msg)
  tailReport : List (Severity × Msg)
  errorCount : Nat
  warningCount : Nat
  newFootprintsCount : Nat
  /-- `m_padNets`: dry-run cache pad → net name. -/
  padNets : List (PadRef × String)
  /-- `m_padPinFunctions`: dry-run cache pad → pin function. -/
  padPinFunctions : List (PadRef × String)
  /-- `m_oldToNewNets`: old net name → new net name. -/
  oldToNewNets : List (String × String)
  /-- `m_addedNets`: names of nets created during this pass. -/
  addedNets : List String
  /-- Footprints staged with `m_commit.Add` (applied at `Push`). -/
  commitAdds : List Footprint
  /-- Ids of footprints staged with `m_commit.Remove` (applied at `Push`). -/
  commitRemoves : List Nat
  /-- `m_zoneConnectionsCache`: zone index → connected pads snapshot. -/
  zoneConnectionsCache : List (Nat × List PadRef)
  /-- `footprintMap`: netlist component index → footprint id. -/
  footprintMap : List (Nat × Nat)
  /-- Fresh id source for footprints created during the pass. -/
  nextId : Nat
deriving Repr

/-! ## Association list and lookup helpers -/

/-- Insert-or-overwrite into an association list (`std::map` assignment). -/
def assocSet {α β : Type} [DecidableEq α] (k : α) (v : β) :
    List (α × β) → List (α × β)
  | [] => [(k, v)]
  | (k', v') :: rest =>
      if k = k' then (k, v) :: rest else (k', v') :: assocSet k v rest

/-- Lookup in an association list. -/
def assocGet {α β : Type} [DecidableEq α] (k : α) (l : List (α × β)) :
    Option β :=
  (l.find? (fun p => p.fst = k)).map (·.snd)

/-- `BOARD::FindNet` by name (the sentinel has name `""`). -/
def findNet (b : Board) (name : String) : Option Net :=
  b.nets.find? (fun n => n.name = name)

/-- Set the current flag of the net with the given name
(`NETINFO_ITEM::SetIsCurrent(true)` through a name handle).  No-op when no
registry entry carries the name (e.g. a net object staged for addition;
staged nets enter the registry as current at `Push` anyway). -/
def markNetCurrent (b : Board) (name : String) : Board :=
  { b with nets := b.nets.map (fun n =>
      if n.name = name then { n with isCurrent := true } else n) }

/-- Find a footprint by id among the board footprints and the staged
additions (a C++ pointer dereference reaches both). -/
def getFootprint (st : UpdState) (fid : Nat) : Option Footprint :=
  (st.board.footprints ++ st.commitAdds).find? (fun f => f.id = fid)

/-- Apply `g` to the footprint with id `fid`, wherever it lives. -/
def modifyFootprint (st : UpdState) (fid : Nat) (g : Footprint → Footprint) :
    UpdState :=
  { st with
    board := { st.board with
      footprints := st.board.footprints.map (fun f =>
        if f.id = fid then g f else f) }
    commitAdds := st.commitAdds.map (fun f =>
      if f.id = fid then g f else f) }

/-- Apply `g` to the pad at index `i` of footprint `fid`. -/
def modifyPad (st : UpdState) (fid : Nat) (i : Nat) (g : Pad → Pad) :
    UpdState :=
  modifyFootprint st fid (fun f =>
    { f with pads := f.pads.mapIdx (fun j p => if j = i then g p else p) })

/-- Read a board pad through its stable handle. -/
def boardPad (b : Board) (r : PadRef) : Option Pad :=
  match b.footprints.find? (fun f => f.id = r.fst) with
  | some f => f.pads.get? r.snd
  | none => none

/-- The board pad list `BOARD::GetPads()`: the pads of the board footprints
in board order (staged additions are not on the board yet). -/
def boardPadRefs (b : Board) : List PadRef :=
  b.footprints.flatMap (fun f => (List.range f.pads.length).map (fun i => (f.id, i)))

/-- `COMPONENT::GetNet(padName)`: the pin binding whose pin name equals the
pad name, or the invalid binding.  Modelled from the spec: components carry
an ordered set of named pins; lookup is by exact pin name. -/
def compGetNet (c : Component) (padName : String) : ComponentNet :=
  match c.nets.find? (fun n => n.pinName = padName) with
  | some n => n
  | none => ⟨"", "", "", ""⟩

/-- `FOOTPRINT::FindPadByName`. -/
def findPadByName (f : Footprint) (padName : String) : Option Pad :=
  f.pads.find? (fun p => p.name = padName)

/-- Does the property map contain the key (`GetProperties().count(key) > 0`)? -/
def hasProp (props : List (String × String)) (key : String) : Bool :=
  props.any (fun p => p.fst = key)

/-- `NETLIST::GetComponentByReference`.  Modelled from the spec: references
are case-insensitive-comparable; the first matching component is returned. -/
def getComponentByReference (netlist : List Component) (ref : String) :
    Option Component :=
  netlist.find? (fun c => eqNoCase c.reference ref)

/-- `NETLIST::GetComponentByPath`.  Modelled from the spec: match by stable
path identity. -/
def getComponentByPath (netlist : List Component) (path : String) :
    Option Component :=
  netlist.find? (fun c => c.path = path)

/-- Append one `Report` entry. -/
def reportMsg (st : UpdState) (sev : Severity) (m : Msg) : UpdState :=
  { st with report := st.report ++ [(sev, m)] }

/-- Append one `ReportTail` entry. -/
def reportTail (st : UpdState) (sev : Severity) (m : Msg) : UpdState :=
  { st with tailReport := st.tailReport ++ [(sev, m)] }

/-! ## Dry-run caches (source lines 81–108) -/

/-- `BOARD_NETLIST_UPDATER::cacheNetname`. -/
def cacheNetname (st : UpdState) (r : PadRef) (netname : String) : UpdState :=
  { st with padNets := assocSet r netname st.padNets }

/-- `BOARD_NETLIST_UPDATER::getNetname`: in dry run prefer the cached name,
otherwise the pad's own net name. -/
def getNetname (opts : Options) (st : UpdState) (r : PadRef) : String :=
  match opts.isDryRun, assocGet r st.padNets with
  | true, some n => n
  | _, _ =>
      match boardPad st.board r with
      | some p => p.netname
      | none => ""

/-- `BOARD_NETLIST_UPDATER::cachePinFunction`. -/
def cachePinFunction (st : UpdState) (r : PadRef) (pinFunction : String) :
    UpdState :=
  { st with padPinFunctions := assocSet r pinFunction st.padPinFunctions }

/-! ## `estimateComponentInsertionPosition` (source lines 111–136) -/

/-- `Millimeter2iu( 10 )` in board internal units (1 iu = 1 nm). -/
def millimeter2iu10 : Int := 10000000

/-- `BOARD_NETLIST_UPDATER::estimateComponentInsertionPosition`; the board
geometry queries come through `Deps`. -/
def estimateComponentInsertionPosition (deps : Deps) : Int × Int :=
  if !deps.boardIsEmpty then
    if deps.bboxWidth ≠ 0 ∨ deps.bboxHeight ≠ 0 then
      (deps.bboxCentreX, deps.bboxBottom + millimeter2iu10)
    else
      (0, 0)
  else
    (deps.pageWidth / 2, deps.pageHeight / 2)

/-! ## `addNewComponent` (source lines 139–198) -/

/-- `BOARD_NETLIST_UPDATER::addNewComponent`.  Returns the id of the staged
new footprint (commit mode, success) or `none`. -/
def addNewComponent (opts : Options) (deps : Deps) (c : Component)
    (st : UpdState) : Option Nat × UpdState :=
  if c.fpid = "" then
    let st := reportMsg st .error (.cannotAddNoFootprint c.reference)
    (none, { st with errorCount := st.errorCount + 1 })
  else
    match deps.loadFootprint c.fpid with
    | none =>
        let st := reportMsg st .error (.cannotAddNotFound c.reference c.fpid)
        (none, { st with errorCount := st.errorCount + 1 })
    | some fp =>
        let st := reportMsg st .action (.addFootprint c.reference c.fpid)
        -- Pads keep the global ratsnest/lock settings and are stripped of
        -- library-resident nets (`SetNetCode( 0 )`).
        let fp := { fp with pads := fp.pads.map (fun (p : Pad) =>
          { p with locked := !deps.addUnlockedPads, netname := "" }) }
        let st := { st with newFootprintsCount := st.newFootprintsCount + 1 }
        if !opts.isDryRun then
          let fp := { fp with
            id := st.nextId
            pos := estimateComponentInsertionPosition deps }
          (some fp.id,
           { st with
             commitAdds := st.commitAdds ++ [fp]
             nextId := st.nextId + 1 })
        else
          -- dry run: the loaded footprint is deleted again
          (none, st)

/-! ## `replaceComponent` (source lines 201–247) -/

/-- `PCB_EDIT_FRAME::ExchangeFootprint` (external collaborator).
Modelled from the spec: "swap footprint geometry when the library
identifier changed" — the new library footprint replaces the old one while
keeping the old footprint's board identity fields (reference, value, path,
properties, attributes, locked flag, position); pad net bindings are carried
over to same-named pads of the new footprint; through the transaction the
old footprint is staged for removal and the new one for addition. -/
def exchangeFootprint (old : Footprint) (newFp : Footprint) (st : UpdState) :
    Nat × UpdState :=
  let fp : Footprint :=
    { newFp with
      id := st.nextId
      reference := old.reference
      value := old.value
      path := old.path
      props := old.props
      boardOnly := old.boardOnly
      excludeFromBom := old.excludeFromBom
      locked := old.locked
      pos := old.pos
      pads := newFp.pads.map (fun p =>
        match old.pads.find? (fun q => q.name = p.name) with
        | some q => { p with netname := q.netname }
        | none => { p with netname := "" }) }
  (fp.id,
   { st with
     commitAdds := st.commitAdds ++ [fp]
     commitRemoves := st.commitRemoves ++ [old.id]
     nextId := st.nextId + 1 })

/-- `BOARD_NETLIST_UPDATER::replaceComponent`.  Returns the id of the
replacement footprint (commit mode, success) or `none`. -/
def replaceComponent (opts : Options) (deps : Deps) (old : Footprint)
    (c : Component) (st : UpdState) : Option Nat × UpdState :=
  if c.fpid = "" then
    let st := reportMsg st .error (.cannotUpdateNoFootprint c.reference)
    (none, { st with errorCount := st.errorCount + 1 })
  else
    match deps.loadFootprint c.fpid with
    | none =>
        let st := reportMsg st .error (.cannotUpdateNotFound c.reference c.fpid)
        (none, { st with errorCount := st.errorCount + 1 })
    | some newFp =>
        let st := reportMsg st .action
          (.changeFootprint old.reference old.fpid c.fpid)
        let st := { st with newFootprintsCount := st.newFootprintsCount + 1 }
        if !opts.isDryRun then
          let (fid, st) := exchangeFootprint old newFp st
          (some fid, st)
        else
          (none, st)

/-! ## `updateFootprintParameters` (source lines 250–353) -/

/-- Reference-designator sync (source lines 260–273); reads the footprint
live, like the C++ member reads. -/
def syncReferenceField (opts : Options) (fid : Nat) (c : Component)
    (st : UpdState) : UpdState :=
  match getFootprint st fid with
  | none => st
  | some f0 =>
    if f0.reference ≠ c.reference then
      let st := reportMsg st .action (.changeReference f0.reference c.reference)
      if !opts.isDryRun then
        modifyFootprint st fid (fun f => { f with reference := c.reference })
      else st
    else st

/-- Value-field sync (source lines 275–289). -/
def syncValueField (opts : Options) (fid : Nat) (c : Component)
    (st : UpdState) : UpdState :=
  match getFootprint st fid with
  | none => st
  | some f1 =>
    if f1.value ≠ c.value then
      let st := reportMsg st .action (.changeValue f1.reference f1.value c.value)
      if !opts.isDryRun then
        modifyFootprint st fid (fun f => { f with value := c.value })
      else st
    else st

/-- Path sync (source lines 291–305). -/
def syncPathField (opts : Options) (fid : Nat) (c : Component)
    (st : UpdState) : UpdState :=
  match getFootprint st fid with
  | none => st
  | some f2 =>
    if f2.path ≠ c.path then
      let st := reportMsg st .action (.updatePath f2.reference f2.path c.path)
      if !opts.isDryRun then
        modifyFootprint st fid (fun f => { f with path := c.path })
      else st
    else st

/-- Property-map sync (source lines 307–318). -/
def syncPropsField (opts : Options) (fid : Nat) (c : Component)
    (st : UpdState) : UpdState :=
  match getFootprint st fid with
  | none => st
  | some f3 =>
    if f3.props ≠ c.props then
      let st := reportMsg st .action (.updateProperties f3.reference)
      if !opts.isDryRun then
        modifyFootprint st fid (fun f => { f with props := c.props })
      else st
    else st

/-- Exclude-from-BOM attribute sync (source lines 320–345). -/
def syncBomAttrField (opts : Options) (fid : Nat) (c : Component)
    (st : UpdState) : UpdState :=
  match getFootprint st fid with
  | none => st
  | some f4 =>
    if hasProp c.props "exclude_from_bom" ≠ f4.excludeFromBom then
      let st :=
        if hasProp c.props "exclude_from_bom" then
          reportMsg st .action (.setExcludeFromBom f4.reference)
        else
          reportMsg st .action (.removeExcludeFromBom f4.reference)
      if !opts.isDryRun then
        modifyFootprint st fid (fun f =>
          { f with excludeFromBom := hasProp c.props "exclude_from_bom" })
      else st
    else st

/-- `BOARD_NETLIST_UPDATER::updateFootprintParameters`: field-by-field
metadata sync of footprint `fid` against component `c`.  Later change
messages read the (possibly already updated) reference, exactly as the
source does.  The undo snapshot (`Clone`/`Modified`) has no effect within
the pass and is not tracked. -/
def updateFootprintParameters (opts : Options) (fid : Nat) (c : Component)
    (st : UpdState) : UpdState :=
  let st := syncReferenceField opts fid c st
  let st := syncValueField opts fid c st
  let st := syncPathField opts fid c st
  let st := syncPropsField opts fid c st
  syncBomAttrField opts fid c st

/-! ## `updateComponentPadConnections` (source lines 356–499) -/

/-- The silent pin-function/pin-type sync of one pad (source lines
379–394). -/
def syncPinMetaFields (opts : Options) (fid : Nat) (i : Nat) (pad : Pad)
    (pinFunction pinType : String) (st : UpdState) : UpdState :=
  if !opts.isDryRun then
    let st :=
      if pad.pinFunction ≠ pinFunction then
        modifyPad st fid i (fun p => { p with pinFunction := pinFunction })
      else st
    if pad.pinType ≠ pinType then
      modifyPad st fid i (fun p => { p with pinType := pinType })
    else st
  else
    cachePinFunction st (fid, i) pinFunction

/-- The disconnect branch of the pad loop (source lines 397–428): the pad
has no net entry or is not connectable. -/
def disconnectPadBranch (opts : Options) (fid : Nat) (i : Nat) (fref : String)
    (pad : Pad) (st : UpdState) : UpdState :=
  let st :=
    if pad.netname ≠ "" then
      reportMsg st .action (.disconnectPin fref pad.name)
    else if opts.warnForNoNetPads ∧ pad.onCopper ∧ pad.name ≠ "" then
      reportMsg st .warning (.noNetForPad fref pad.name)
    else st
  if !opts.isDryRun then
    -- after `SetNetCode( UNCONNECTED )` the net name reads back empty, so
    -- the following guard always clears the pin function
    let st := modifyPad st fid i (fun p => { p with netname := "" })
    modifyPad st fid i (fun p => { p with pinFunction := "" })
  else
    cacheNetname st (fid, i) ""

/-- The connect branch of the pad loop (source lines 429–490): the pad has
a net entry whose net name differs from the pad's current net name. -/
def connectPadBranch (opts : Options) (fid : Nat) (i : Nat) (fref : String)
    (pad : Pad) (netName : String) (netinfoFound : Bool) (st : UpdState) :
    UpdState :=
  let st :=
    if !netinfoFound ∧ !(st.addedNets.contains netName) then
      -- a new net: mint it, register with the transaction outside dry run
      -- (staged net additions are `addedNets`), and report
      let st := { st with addedNets := st.addedNets ++ [netName] }
      reportMsg st .action (.addNet netName)
    else st
  let st :=
    if pad.netname ≠ "" then
      let st := { st with
        oldToNewNets := assocSet pad.netname netName st.oldToNewNets }
      reportMsg st .action (.reconnectPin fref pad.name pad.netname netName)
    else
      reportMsg st .action (.connectPin fref pad.name netName)
  if !opts.isDryRun then
    modifyPad st fid i (fun p => { p with netname := netName })
  else
    cacheNetname st (fid, i) netName

/-- The net half of the pad loop body (source lines 396–490), after the
pin-function/pin-type sync. -/
def syncPadNetPart (opts : Options) (fid i : Nat) (fref : String) (pad : Pad)
    (net : ComponentNet) (st : UpdState) : UpdState :=
  if net.pinName = "" ∨ !pad.onCopper then
    disconnectPadBranch opts fid i fref pad st
  else
    let netName := net.netName
    let netinfo := findNet st.board netName
    let st :=
      if netinfo.isSome ∧ !opts.isDryRun then
        { st with board := markNetCurrent st.board netName }
      else st
    if pad.netname ≠ netName then
      connectPadBranch opts fid i fref pad netName netinfo.isSome st
    else st

/-- One iteration of the pad loop of `updateComponentPadConnections`, for
the pad at index `i` of footprint `fid`. -/
def syncOnePad (opts : Options) (fid : Nat) (c : Component) (st : UpdState)
    (i : Nat) : UpdState :=
  match getFootprint st fid with
  | none => st
  | some f =>
    match f.pads.get? i with
    | none => st
    | some pad =>
      let net := compGetNet c pad.name
      let pinFunction := if net.pinName ≠ "" then net.pinFunction else ""
      let pinType := if net.pinName ≠ "" then net.pinType else ""
      let st := syncPinMetaFields opts fid i pad pinFunction pinType st
      syncPadNetPart opts fid i f.reference pad net st

/-- `BOARD_NETLIST_UPDATER::updateComponentPadConnections`. -/
def updateComponentPadConnections (opts : Options) (fid : Nat)
    (c : Component) (st : UpdState) : UpdState :=
  match getFootprint st fid with
  | none => st
  | some f => (List.range f.pads.length).foldl (syncOnePad opts fid c) st

/-! ## `cacheCopperZoneConnections` (source lines 502–511) -/

/-- `BOARD_NETLIST_UPDATER::cacheCopperZoneConnections`: snapshot the pads
connected to every electrically relevant zone. -/
def cacheCopperZoneConnections (deps : Deps) (st : UpdState) : UpdState :=
  { st with zoneConnectionsCache :=
      st.board.zones.enum.filterMap (fun iz =>
        if iz.snd.onCopper ∧ !iz.snd.ruleArea then
          some (iz.fst, deps.zoneConnectedPads iz.fst)
        else none) }

/-! ## `updateCopperZoneNets` (source lines 514–637) -/

/-- The names of every net referenced by the new netlist (the
`netlistNetnames` set; all components contribute, with no
exclude-from-board filtering). -/
def netlistNetnames (netlist : List Component) : List String :=
  netlist.flatMap (fun c => c.nets.map (·.netName))

/-- Set the net of the track at index `vi`. -/
def setTrackNetname (st : UpdState) (vi : Nat) (n : String) : UpdState :=
  { st with board := { st.board with
      tracks := st.board.tracks.mapIdx (fun j t =>
        if j = vi then { t with netname := n } else t) } }

/-- Set the net of the zone at index `zi`. -/
def setZoneNetname (st : UpdState) (zi : Nat) (n : String) : UpdState :=
  { st with board := { st.board with
      zones := st.board.zones.mapIdx (fun j z =>
        if j = zi then { z with netname := n } else z) } }

/-- The via half of `updateCopperZoneNets`: one track, consulting only the
old→new rename map. -/
def updateOneVia (opts : Options) (nlNames : List String) (st : UpdState)
    (vi : Nat) : UpdState :=
  match st.board.tracks.get? vi with
  | none => st
  | some via =>
    if !via.isVia then st
    else if nlNames.contains via.netname then st
    else
      let updatedNetname :=
        match assocGet via.netname st.oldToNewNets with
        | some n => n
        | none => ""
      if updatedNetname ≠ "" then
        let st := reportMsg st .action (.reconnectVia via.netname updatedNetname)
        if !opts.isDryRun then
          if (findNet st.board updatedNetname).isSome
              ∨ st.addedNets.contains updatedNetname then
            setTrackNetname st vi updatedNetname
          else st
        else st
      else
        let st := reportMsg st .warning (.viaUnknownNet via.netname)
        { st with warningCount := st.warningCount + 1 }

/-- The zone half of `updateCopperZoneNets`: one zone, consulting the
connected-pad snapshot first, then the old→new rename map. -/
def updateOneZone (opts : Options) (nlNames : List String) (st : UpdState)
    (zi : Nat) : UpdState :=
  match st.board.zones.get? zi with
  | none => st
  | some z =>
    if !z.onCopper ∨ z.ruleArea then st
    else if nlNames.contains z.netname then st
    else
      let cached :=
        match assocGet zi st.zoneConnectionsCache with
        | some l => l
        | none => []
      -- (a) first connected pad whose (possibly cached) net name differs
      let fromPad :=
        match cached.find? (fun r => getNetname opts st r ≠ z.netname) with
        | some r => getNetname opts st r
        | none => ""
      -- (b) the rename map, when (a) produced nothing
      let updatedNetname :=
        if fromPad = "" then
          match assocGet z.netname st.oldToNewNets with
          | some n => n
          | none => ""
        else fromPad
      if updatedNetname ≠ "" then
        let st := reportMsg st .action (.reconnectZone z.netname updatedNetname)
        if !opts.isDryRun then
          if (findNet st.board updatedNetname).isSome
              ∨ st.addedNets.contains updatedNetname then
            setZoneNetname st zi updatedNetname
          else st
        else st
      else
        -- (c) leave unchanged and warn
        let st := reportMsg st .warning (.zoneNoPads z.netname)
        { st with warningCount := st.warningCount + 1 }

/-- `BOARD_NETLIST_UPDATER::updateCopperZoneNets`: vias first, then zones. -/
def updateCopperZoneNets (opts : Options) (netlist : List Component)
    (st : UpdState) : UpdState :=
  let nlNames := netlistNetnames netlist
  let st := (List.range st.board.tracks.length).foldl
    (updateOneVia opts nlNames) st
  (List.range st.board.zones.length).foldl (updateOneZone opts nlNames) st

/-! ## `deleteSinglePadNets` (source lines 640–720) -/

/-- Set a board pad's net name through its handle. -/
def setPadNetname (st : UpdState) (r : PadRef) (n : String) : UpdState :=
  modifyPad st r.fst r.snd (fun p => { p with netname := n })

/-- Insert a pad handle into a list sorted by (possibly cached) net name. -/
def insertByNetname (opts : Options) (st : UpdState) (r : PadRef) :
    List PadRef → List PadRef
  | [] => [r]
  | x :: xs =>
      if strLt (getNetname opts st r) (getNetname opts st x) then r :: x :: xs
      else x :: insertByNetname opts st r xs

/-- `std::sort` of the board pad list by net name.  The comparator only
orders by net name, so any order within a name group is admissible; an
insertion sort gives one such order. -/
def sortPadsByNetname (opts : Options) (st : UpdState) (l : List PadRef) :
    List PadRef :=
  l.foldr (insertByNetname opts st) []

/-- Accumulator of the linear scan of `deleteSinglePadNets`. -/
structure PruneAcc where
  st : UpdState
  count : Nat
  netname : String
  previouspad : Option PadRef

/-- The zone test of `deleteSinglePadNets`: bump the count once when some
electrically relevant copper zone carries the previous pad's net. -/
def pruneZoneCheck (opts : Options) (st : UpdState) (prev : PadRef)
    (count : Nat) : Nat :=
  if st.board.zones.any (fun z =>
      z.onCopper ∧ !z.ruleArea ∧ z.netname = getNetname opts st prev) then
    count + 1
  else count

/-- One iteration of the pad scan of `deleteSinglePadNets`. -/
def pruneStep (opts : Options) (acc : PruneAcc) (r : PadRef) : PruneAcc :=
  let st := acc.st
  if getNetname opts st r = "" then acc
  else if acc.netname ≠ getNetname opts st r then
    -- end of the previous net-name group
    let st :=
      match acc.previouspad with
      | some prev =>
        if acc.count = 1 then
          let count := pruneZoneCheck opts st prev acc.count
          if count = 1 then
            -- really one pad, and nothing else
            let st := reportMsg st .action
              (.removeSinglePadNet (getNetname opts st prev))
            if !opts.isDryRun then setPadNetname st prev ""
            else cacheNetname st prev ""
          else st
        else st
      | none => st
    { st := st, count := 1, netname := getNetname opts st r, previouspad := some r }
  else
    { acc with count := acc.count + 1, previouspad := some r }

/-- `BOARD_NETLIST_UPDATER::deleteSinglePadNets`.
`m_board->BuildListOfNets()` (outside this translation unit) rebuilds net
code bookkeeping without altering pad→net-name bindings, so it has no
effect in this name-based model. -/
def deleteSinglePadNets (opts : Options) (st : UpdState) : UpdState :=
  let padlist := sortPadsByNetname opts st (boardPadRefs st.board)
  let acc := padlist.foldl (pruneStep opts) ⟨st, 0, "", none⟩
  -- examine the last pad: no zone test and no report happen here
  if acc.count = 1 then
    match acc.previouspad with
    | some prev =>
        if !opts.isDryRun then setPadNetname acc.st prev ""
        else cacheNetname acc.st prev ""
    | none => acc.st
  else acc.st

/-! ## `testConnectivity` (source lines 723–760) -/

/-- `BOARD_NETLIST_UPDATER::testConnectivity`: every netlist pin of a
mapped component must have a pad on the mapped footprint. -/
def testConnectivity (netlist : List Component) (st : UpdState) : UpdState :=
  netlist.enum.foldl (fun st ic =>
    match assocGet ic.fst st.footprintMap with
    | none => st   -- can be missing in partial designs
    | some fid =>
      match getFootprint st fid with
      | none => st
      | some f =>
        ic.snd.nets.foldl (fun st pin =>
          match findPadByName f pin.pinName with
          | some _ => st
          | none =>
            let st := reportMsg st .error
              (.padNotFound ic.snd.reference pin.pinName f.fpid)
            { st with errorCount := st.errorCount + 1 }) st) st

/-! ## `UpdateNetlist` (source lines 763–957) -/

/-- Record the component→footprint association and run the metadata and
pad-connection updates (the common tail of both the match path, source
lines 824–830, and the new-footprint path, source lines 846–852); `none`
means the footprint was not available (failed replace or add). -/
def applyComponentUpdates (opts : Options) (idx : Nat) (c : Component)
    (tmp : Option Nat) (st : UpdState) : UpdState :=
  match tmp with
  | some fid =>
      let st := { st with footprintMap := assocSet idx fid st.footprintMap }
      let st := updateFootprintParameters opts fid c st
      updateComponentPadConnections opts fid c st
  | none => st

/-- The footprint-to-component match test of the main loop (source lines
824–838): by path under timestamp lookup, else case-insensitively by
reference. -/
def matchesC (opts : Options) (c : Component) (f : Footprint) : Bool :=
  if opts.lookupByTimestamp then f.path = c.path
  else eqNoCase f.reference c.reference

/-- One step of the match scan inside the main component loop: footprint at
index `i` against component `c` (component index `idx` within the
netlist). -/
def matchScanStep (opts : Options) (deps : Deps) (idx : Nat) (c : Component)
    (acc : Nat × UpdState) (i : Nat) : Nat × UpdState :=
  let st := acc.snd
  match st.board.footprints.get? i with
  | none => acc
  | some f =>
    let isMatch := matchesC opts c f
    if isMatch then
      let ts :=
        if opts.replaceFootprints ∧ c.fpid ≠ f.fpid then
          replaceComponent opts deps f c st
        else (some f.id, st)
      (acc.fst + 1, applyComponentUpdates opts idx c ts.fst ts.snd)
    else (acc.fst, st)

/-- The body of the main component loop for one netlist component.
`boundary` is the index of the last pre-existing footprint captured before
the pass (the loop breaks right after processing it); `none` when the
board had no footprints. -/
def processComponent (opts : Options) (deps : Deps) (boundary : Option Nat)
    (st : UpdState) (ic : Nat × Component) : UpdState :=
  if hasProp ic.snd.props "exclude_from_board" then st
  else
    let c := ic.snd
    let st := reportMsg st .info (.processing c.reference c.fpid)
    let scanIdxs :=
      match boundary with
      | some b => List.range (b + 1)
      | none => List.range st.board.footprints.length
    let ms := scanIdxs.foldl (matchScanStep opts deps ic.fst c) (0, st)
    let st := ms.snd
    if ms.fst = 0 then
      let fs := addNewComponent opts deps c st
      applyComponentUpdates opts ic.fst c fs.fst fs.snd
    else if ms.fst > 1 then
      -- reported as an error; note: the error counter is not incremented
      reportMsg st .error (.multipleFootprints c.reference)
    else st

/-- The main component loop of `UpdateNetlist`. -/
def componentLoop (opts : Options) (deps : Deps) (boundary : Option Nat)
    (netlist : List Component) (st : UpdState) : UpdState :=
  netlist.enum.foldl (processComponent opts deps boundary) st

/-- The unused-footprint sweep for one board footprint (source lines
867–909). -/
def sweepOneFootprint (opts : Options) (netlist : List Component)
    (st : UpdState) (f : Footprint) : UpdState :=
  let doDelete := opts.deleteUnusedComponents
  let doDelete := if f.boardOnly then false else doDelete
  let doDelete :=
    if doDelete then
      let comp :=
        if opts.lookupByTimestamp then getComponentByPath netlist f.path
        else getComponentByReference netlist f.reference
      match comp with
      | some c => if !(hasProp c.props "exclude_from_board") then false else doDelete
      | none => doDelete
    else doDelete
  let sd :=
    if doDelete ∧ f.locked then
      -- warning reported; note: the warning counter is not incremented
      (reportMsg st .warning (.cannotRemoveLocked f.reference), false)
    else (st, doDelete)
  let st := sd.fst
  if sd.snd then
    let st := reportMsg st .action (.removeFootprint f.reference)
    if !opts.isDryRun then
      { st with commitRemoves := st.commitRemoves ++ [f.id] }
    else st
  else if !opts.isDryRun then
    -- keep: mark the nets of this footprint's pads as current (a pad on
    -- the unconnected net marks the sentinel, which is already current)
    { st with board := f.pads.foldl (fun b p => markNetCurrent b p.netname) st.board }
  else st

/-- `BOARD_COMMIT::Push` (external collaborator).  Modelled from the spec:
the ordered change log is applied atomically — staged footprint removals
are taken off the board, staged footprint additions are appended, and
staged net additions enter the registry (a freshly minted
`NETINFO_ITEM` is current). -/
def pushCommit (st : UpdState) : UpdState :=
  { st with
    board := { st.board with
      footprints :=
        st.board.footprints.filter (fun f => !(st.commitRemoves.contains f.id))
          ++ st.commitAdds
      nets := st.board.nets ++ st.addedNets.map (fun n => ⟨n, true⟩) }
    commitAdds := []
    commitRemoves := [] }

/-- The initial updater state for one pass (constructor plus the count
resets at the top of `UpdateNetlist`).  Fresh footprint ids start above
every id on the board. -/
def initState (board : Board) : UpdState :=
  { board := board
    report := []
    tailReport := []
    errorCount := 0
    warningCount := 0
    newFootprintsCount := 0
    padNets := []
    padPinFunctions := []
    oldToNewNets := []
    addedNets := []
    commitAdds := []
    commitRemoves := []
    zoneConnectionsCache := []
    footprintMap := []
    nextId := (board.footprints.map Footprint.id).foldl max 0 + 1 }

/-- Mark every net except the sentinel (net code 0, name `""`) as stale
(source lines 783–789; `m_board->SetStatus( 0 )` acts on item status flags
outside this model). -/
def markAllNetsStale (st : UpdState) : UpdState :=
  { st with board := { st.board with
      nets := st.board.nets.map (fun n => { n with isCurrent := n.name = "" }) } }

/-- The stale-net report loop of `UpdateNetlist` (source lines 920–928). -/
def reportStaleNets (st : UpdState) : UpdState :=
  st.board.nets.foldl (fun st n =>
    if !n.isCurrent then reportMsg st .action (.removeUnusedNet n.name)
    else st) st

/-- `NETINFO_LIST::RemoveUnusedNets` (external collaborator).  Modelled
from the spec: every net still stale is removed; current nets are
retained. -/
def removeUnusedNets (st : UpdState) : UpdState :=
  { st with board := { st.board with
      nets := st.board.nets.filter (·.isCurrent) } }

/-- The finalization of `UpdateNetlist` (source lines 911–939): in commit
mode the connectivity test, optional single-pad-net pruning, stale-net
removal and the atomic commit push; in dry run only the optional pruning
(and only when no new footprints were counted, because those are not
actually on the board). -/
def finalizeUpdate (opts : Options) (netlist : List Component)
    (st : UpdState) : UpdState :=
  if !opts.isDryRun then
    let st := testConnectivity netlist st
    let st :=
      if opts.deleteSinglePadNets then deleteSinglePadNets opts st else st
    let st := reportStaleNets st
    let st := removeUnusedNets st
    pushCommit st
  else if opts.deleteSinglePadNets ∧ st.newFootprintsCount = 0 then
    deleteSinglePadNets opts st
  else st

/-- `BOARD_NETLIST_UPDATER::UpdateNetlist`.  The connectivity rebuild acts
on the connectivity engine outside this model and has no observable effect
here. -/
def UpdateNetlist (opts : Options) (deps : Deps) (board : Board)
    (netlist : List Component) : UpdState :=
  let st := initState board
  let boundary : Option Nat :=
    if board.footprints.isEmpty then none else some (board.footprints.length - 1)
  let st := cacheCopperZoneConnections deps st
  let st := if !opts.isDryRun then markAllNetsStale st else st
  let st := componentLoop opts deps boundary netlist st
  let st := updateCopperZoneNets opts netlist st
  let st := st.board.footprints.foldl (sweepOneFootprint opts netlist) st
  let st := finalizeUpdate opts netlist st
  let st :=
    if opts.isDryRun then { st with addedNets := [] } else st
  let st := reportTail st .action .blank
  let st := reportTail st .action .blank
  reportTail st .info (.totalWarnings st.warningCount st.errorCount)

/-- Number of Action-severity entries in a report. -/
def countActions (report : List (Severity × Msg)) : Nat :=
  (report.filter (fun e => e.fst = Severity.action)).length

/-- Number of indices of `l` whose footprint in `L` matches component `c`
under the loop's match test. -/
def scanMatchCount (opts : Options) (c : Component) (L : List Footprint)
    (l : List Nat) : Nat :=
  (l.filter (fun i =>
    match L.get? i with
    | some f => matchesC opts c f
    | none => false)).length

/-- Footprint metadata agrees with the component field by field, as
`updateFootprintParameters` leaves it. -/
def MetaSynced (c : Component) (f : Footprint) : Prop :=
  f.reference = c.reference ∧ f.value = c.value ∧ f.path = c.path ∧
  f.props = c.props ∧ f.excludeFromBom = hasProp c.props "exclude_from_bom"

/-- The metadata sync of `updateFootprintParameters` as one function. -/
def metaApply (c : Component) (f : Footprint) : Footprint :=
  { f with reference := c.reference, value := c.value, path := c.path,
           props := c.props,
           excludeFromBom := hasProp c.props "exclude_from_bom" }

/-- The metadata view of a footprint: its identity plus every field
`updateFootprintParameters` may change. -/
def metaOf (f : Footprint) :
    Nat × String × String × String × List (String × String) × Bool :=
  (f.id, f.reference, f.value, f.path, f.props, f.excludeFromBom)

/-- The footprint metadata, position by position, is unchanged. -/
def MetaFrame (st st' : UpdState) : Prop :=
  ∀ k, (st'.board.footprints.get? k).map metaOf =
    (st.board.footprints.get? k).map metaOf

/-- Board footprints other than `fid` are untouched, position by
position. -/
def OtherIdFrame (fid : Nat) (st st' : UpdState) : Prop :=
  ∀ k f, st.board.footprints.get? k = some f → f.id ≠ fid →
    st'.board.footprints.get? k = some f


/-! ## General helper lemmas -/

theorem foldl_invariant {σ α : Type} (f : σ → α → σ) (P : σ → Prop)
    (l : List α) (s : σ) (hs : P s) (h : ∀ s a, P s → P (f s a)) :
    P (l.foldl f s) := by
  induction l generalizing s with
  | nil => exact hs
  | cons x xs ih => exact ih _ (h s x hs)

theorem foldl_invariant_mem {σ α : Type} (f : σ → α → σ) (P : σ → Prop)
    (l : List α) (s : σ) (hs : P s) (h : ∀ s a, a ∈ l → P s → P (f s a)) :
    P (l.foldl f s) := by
  induction l generalizing s with
  | nil => exact hs
  | cons x xs ih =>
      exact ih _ (h s x (List.mem_cons_self x xs) hs)
        (fun s a ha hp => h s a (List.mem_cons_of_mem x ha) hp)

/-! ## Report monotonicity

Every operation of the updater only appends to the report; membership of a
report entry is preserved through the whole pass. -/

/-- Entries already reported stay reported. -/
def ReportMono (st st' : UpdState) : Prop :=
  ∀ x, x ∈ st.report → x ∈ st'.report

theorem reportMono_refl (st : UpdState) : ReportMono st st := fun _ h => h

theorem reportMono_trans {a b c : UpdState} (h1 : ReportMono a b)
    (h2 : ReportMono b c) : ReportMono a c := fun x hx => h2 x (h1 x hx)

@[simp] theorem report_reportMsg (st : UpdState) (sev : Severity) (m : Msg) :
    (reportMsg st sev m).report = st.report ++ [(sev, m)] := rfl

@[simp] theorem report_modifyFootprint (st : UpdState) (fid : Nat)
    (g : Footprint → Footprint) :
    (modifyFootprint st fid g).report = st.report := rfl

@[simp] theorem report_modifyPad (st : UpdState) (fid i : Nat)
    (g : Pad → Pad) : (modifyPad st fid i g).report = st.report := rfl

@[simp] theorem report_cacheNetname (st : UpdState) (r : PadRef) (n : String) :
    (cacheNetname st r n).report = st.report := rfl

@[simp] theorem report_cachePinFunction (st : UpdState) (r : PadRef)
    (n : String) : (cachePinFunction st r n).report = st.report := rfl

@[simp] theorem report_setPadNetname (st : UpdState) (r : PadRef)
    (n : String) : (setPadNetname st r n).report = st.report := rfl

@[simp] theorem report_setTrackNetname (st : UpdState) (vi : Nat)
    (n : String) : (setTrackNetname st vi n).report = st.report := rfl

@[simp] theorem report_setZoneNetname (st : UpdState) (zi : Nat)
    (n : String) : (setZoneNetname st zi n).report = st.report := rfl

@[simp] theorem board_reportMsg (st : UpdState) (sev : Severity) (m : Msg) :
    (reportMsg st sev m).board = st.board := rfl

@[simp] theorem errorCount_reportMsg (st : UpdState) (sev : Severity)
    (m : Msg) : (reportMsg st sev m).errorCount = st.errorCount := rfl

@[simp] theorem warningCount_reportMsg (st : UpdState) (sev : Severity)
    (m : Msg) : (reportMsg st sev m).warningCount = st.warningCount := rfl

@[simp] theorem board_cacheNetname (st : UpdState) (r : PadRef) (n : String) :
    (cacheNetname st r n).board = st.board := rfl

@[simp] theorem board_cachePinFunction (st : UpdState) (r : PadRef)
    (n : String) : (cachePinFunction st r n).board = st.board := rfl

theorem reportMono_syncReferenceField (opts : Options) (fid : Nat)
    (c : Component) (st : UpdState) :
    ReportMono st (syncReferenceField opts fid c st) := by
  intro x hx
  simp only [syncReferenceField]
  repeat' split
  all_goals simp_all

theorem reportMono_syncValueField (opts : Options) (fid : Nat)
    (c : Component) (st : UpdState) :
    ReportMono st (syncValueField opts fid c st) := by
  intro x hx
  simp only [syncValueField]
  repeat' split
  all_goals simp_all

theorem reportMono_syncPathField (opts : Options) (fid : Nat)
    (c : Component) (st : UpdState) :
    ReportMono st (syncPathField opts fid c st) := by
  intro x hx
  simp only [syncPathField]
  repeat' split
  all_goals simp_all

theorem reportMono_syncPropsField (opts : Options) (fid : Nat)
    (c : Component) (st : UpdState) :
    ReportMono st (syncPropsField opts fid c st) := by
  intro x hx
  simp only [syncPropsField]
  repeat' split
  all_goals simp_all

theorem reportMono_syncBomAttrField (opts : Options) (fid : Nat)
    (c : Component) (st : UpdState) :
    ReportMono st (syncBomAttrField opts fid c st) := by
  intro x hx
  simp only [syncBomAttrField]
  repeat' split
  all_goals simp_all

theorem reportMono_updateFootprintParameters (opts : Options) (fid : Nat)
    (c : Component) (st : UpdState) :
    ReportMono st (updateFootprintParameters opts fid c st) := by
  simp only [updateFootprintParameters]
  refine reportMono_trans (reportMono_syncReferenceField opts fid c st) ?_
  refine reportMono_trans (reportMono_syncValueField opts fid c _) ?_
  refine reportMono_trans (reportMono_syncPathField opts fid c _) ?_
  refine reportMono_trans (reportMono_syncPropsField opts fid c _) ?_
  exact reportMono_syncBomAttrField opts fid c _

theorem reportMono_syncPinMetaFields (opts : Options) (fid i : Nat)
    (pad : Pad) (pinFunction pinType : String) (st : UpdState) :
    ReportMono st (syncPinMetaFields opts fid i pad pinFunction pinType st) := by
  intro x hx
  simp only [syncPinMetaFields]
  repeat' split
  all_goals simp_all

theorem reportMono_disconnectPadBranch (opts : Options) (fid i : Nat)
    (fref : String) (pad : Pad) (st : UpdState) :
    ReportMono st (disconnectPadBranch opts fid i fref pad st) := by
  intro x hx
  simp only [disconnectPadBranch]
  repeat' split
  all_goals simp_all

theorem reportMono_connectPadBranch (opts : Options) (fid i : Nat)
    (fref : String) (pad : Pad) (netName : String) (netinfoFound : Bool)
    (st : UpdState) :
    ReportMono st (connectPadBranch opts fid i fref pad netName netinfoFound st) := by
  intro x hx
  simp only [connectPadBranch]
  repeat' split
  all_goals simp_all

theorem reportMono_syncPadNetPart (opts : Options) (fid i : Nat)
    (fref : String) (pad : Pad) (net : ComponentNet) (st : UpdState) :
    ReportMono st (syncPadNetPart opts fid i fref pad net st) := by
  simp only [syncPadNetPart]
  split
  · exact reportMono_disconnectPadBranch _ _ _ _ _ _
  · split
    · split
      · intro x hx
        exact reportMono_connectPadBranch _ _ _ _ _ _ _ _ x hx
      · intro x hx
        exact reportMono_connectPadBranch _ _ _ _ _ _ _ _ x hx
    · split
      · intro x hx; exact hx
      · exact reportMono_refl _

theorem reportMono_syncOnePad (opts : Options) (fid : Nat) (c : Component)
    (st : UpdState) (i : Nat) : ReportMono st (syncOnePad opts fid c st i) := by
  simp only [syncOnePad]
  split
  · exact reportMono_refl _
  · split
    · exact reportMono_refl _
    · refine reportMono_trans ?_ (reportMono_syncPadNetPart _ _ _ _ _ _ _)
      exact reportMono_syncPinMetaFields _ _ _ _ _ _ _

theorem reportMono_updateComponentPadConnections (opts : Options) (fid : Nat)
    (c : Component) (st : UpdState) :
    ReportMono st (updateComponentPadConnections opts fid c st) := by
  simp only [updateComponentPadConnections]
  split
  · exact reportMono_refl st
  · exact foldl_invariant _ (ReportMono st) _ st (reportMono_refl st)
      (fun s i h => reportMono_trans h (reportMono_syncOnePad opts fid c s i))

theorem reportMono_addNewComponent (opts : Options) (deps : Deps)
    (c : Component) (st : UpdState) :
    ReportMono st (addNewComponent opts deps c st).snd := by
  intro x hx
  simp only [addNewComponent]
  repeat' split
  all_goals simp_all

theorem reportMono_replaceComponent (opts : Options) (deps : Deps)
    (old : Footprint) (c : Component) (st : UpdState) :
    ReportMono st (replaceComponent opts deps old c st).snd := by
  intro x hx
  simp only [replaceComponent, exchangeFootprint]
  repeat' split
  all_goals simp_all

theorem reportMono_applyComponentUpdates (opts : Options) (idx : Nat)
    (c : Component) (tmp : Option Nat) (st : UpdState) :
    ReportMono st (applyComponentUpdates opts idx c tmp st) := by
  simp only [applyComponentUpdates]
  split
  · refine reportMono_trans ?_ (reportMono_updateComponentPadConnections _ _ _ _)
    refine reportMono_trans ?_ (reportMono_updateFootprintParameters _ _ _ _)
    exact fun x hx => hx
  · exact reportMono_refl _

set_option maxHeartbeats 2000000 in
theorem reportMono_matchScanStep (opts : Options) (deps : Deps) (idx : Nat)
    (c : Component) (acc : Nat × UpdState) (i : Nat) :
    ReportMono acc.snd (matchScanStep opts deps idx c acc i).snd := by
  intro x hx
  simp only [matchScanStep]
  split
  · exact hx
  · split
    · split
      · exact reportMono_applyComponentUpdates _ _ _ _ _ x
          (reportMono_replaceComponent _ _ _ _ _ x hx)
      · exact reportMono_applyComponentUpdates _ _ _ _ _ x hx
    · exact hx

theorem reportMono_scanFold (opts : Options) (deps : Deps) (idx : Nat)
    (c : Component) (l : List Nat) (n : Nat) (st : UpdState) :
    ReportMono st (l.foldl (matchScanStep opts deps idx c) (n, st)).snd := by
  refine foldl_invariant _ (fun (acc : Nat × UpdState) => ReportMono st acc.snd)
    _ _ (reportMono_refl _) ?_
  exact fun s a h => reportMono_trans h (reportMono_matchScanStep _ _ _ _ _ _)

theorem reportMono_processComponent (opts : Options) (deps : Deps)
    (boundary : Option Nat) (st : UpdState) (ic : Nat × Component) :
    ReportMono st (processComponent opts deps boundary st ic) := by
  intro x hx
  simp only [processComponent]
  split
  · exact hx
  · have h1 : x ∈ (reportMsg st .info
        (.processing ic.snd.reference ic.snd.fpid)).report := by simp [hx]
    split
    · exact reportMono_applyComponentUpdates _ _ _ _ _ x
        (reportMono_addNewComponent _ _ _ _ x
          (reportMono_scanFold _ _ _ _ _ _ _ x h1))
    · split
      · simp only [report_reportMsg]
        exact List.mem_append_left _ (reportMono_scanFold _ _ _ _ _ _ _ x h1)
      · exact reportMono_scanFold _ _ _ _ _ _ _ x h1

theorem reportMono_componentLoop (opts : Options) (deps : Deps)
    (boundary : Option Nat) (netlist : List Component) (st : UpdState) :
    ReportMono st (componentLoop opts deps boundary netlist st) := by
  refine foldl_invariant _ (ReportMono st) _ _ (reportMono_refl st)
    (fun s a h => reportMono_trans h (reportMono_processComponent _ _ _ _ _))

theorem reportMono_processFold (opts : Options) (deps : Deps)
    (boundary : Option Nat) (l : List (Nat × Component)) (st : UpdState) :
    ReportMono st (l.foldl (processComponent opts deps boundary) st) :=
  foldl_invariant _ (ReportMono st) _ _ (reportMono_refl st)
    (fun s a h => reportMono_trans h (reportMono_processComponent _ _ _ _ _))

/-- A non-excluded component always contributes its Processing info entry. -/
theorem processing_mem_processComponent (opts : Options) (deps : Deps)
    (boundary : Option Nat) (st : UpdState) (ic : Nat × Component)
    (hExcl : hasProp ic.snd.props "exclude_from_board" = false) :
    (Severity.info, Msg.processing ic.snd.reference ic.snd.fpid)
      ∈ (processComponent opts deps boundary st ic).report := by
  have base : (Severity.info, Msg.processing ic.snd.reference ic.snd.fpid)
      ∈ (reportMsg st .info (.processing ic.snd.reference ic.snd.fpid)).report := by
    simp
  simp only [processComponent, hExcl]
  rw [if_neg (by simp)]
  split
  · exact reportMono_applyComponentUpdates _ _ _ _ _ _
      (reportMono_addNewComponent _ _ _ _ _
        (reportMono_scanFold _ _ _ _ _ _ _ _ base))
  · split
    · simp only [report_reportMsg]
      exact List.mem_append_left _ (reportMono_scanFold _ _ _ _ _ _ _ _ base)
    · exact reportMono_scanFold _ _ _ _ _ _ _ _ base

/-- Every non-excluded entry of the processed list leaves its Processing
info entry in the report of the fold. -/
theorem processing_mem_processFold (opts : Options) (deps : Deps)
    (boundary : Option Nat) :
    ∀ (l : List (Nat × Component)) (st : UpdState) (p : Nat × Component),
      p ∈ l → hasProp p.snd.props "exclude_from_board" = false →
      (Severity.info, Msg.processing p.snd.reference p.snd.fpid)
        ∈ (l.foldl (processComponent opts deps boundary) st).report := by
  intro l
  induction l with
  | nil => intro st p hp; cases hp
  | cons q l ih =>
      intro st p hp hExcl
      rcases List.mem_cons.mp hp with heq | hmem
      · subst heq
        exact reportMono_processFold opts deps boundary l _ _
          (processing_mem_processComponent opts deps boundary st p hExcl)
      · exact ih _ p hmem hExcl

/-! ## Footprint-identity frame

During the main component loop the board's footprint list never gains or
loses an entry (additions and removals are staged in the transaction), and
every footprint created during the pass carries a fresh id. -/

/-- The ops that neither allocate footprints nor touch the board footprint
list structurally: the id lists and the fresh-id source are unchanged. -/
def IdsFrame (st st' : UpdState) : Prop :=
  st'.board.footprints.map Footprint.id = st.board.footprints.map Footprint.id
  ∧ st'.commitAdds.map Footprint.id = st.commitAdds.map Footprint.id
  ∧ st'.nextId = st.nextId

theorem idsFrame_refl (st : UpdState) : IdsFrame st st := ⟨rfl, rfl, rfl⟩

theorem idsFrame_trans {a b c : UpdState} (h1 : IdsFrame a b)
    (h2 : IdsFrame b c) : IdsFrame a c :=
  ⟨h2.1.trans h1.1, h2.2.1.trans h1.2.1, h2.2.2.trans h1.2.2⟩

theorem map_id_ite_update {g : Footprint → Footprint}
    (h : ∀ f, (g f).id = f.id) (fid : Nat) :
    ∀ l : List Footprint,
      (l.map (fun f => if f.id = fid then g f else f)).map Footprint.id =
        l.map Footprint.id := by
  intro l
  induction l with
  | nil => rfl
  | cons a t ih =>
      simp only [List.map_cons, ih]
      split <;> simp [h a]

theorem idsFrame_modifyFootprint (st : UpdState) (fid : Nat)
    (g : Footprint → Footprint) (h : ∀ f, (g f).id = f.id) :
    IdsFrame st (modifyFootprint st fid g) :=
  ⟨map_id_ite_update h fid _, map_id_ite_update h fid _, rfl⟩

theorem idsFrame_modifyPad (st : UpdState) (fid i : Nat) (g : Pad → Pad) :
    IdsFrame st (modifyPad st fid i g) := by
  simp only [modifyPad]
  exact idsFrame_modifyFootprint st fid _ (fun _ => rfl)

theorem idsFrame_syncReferenceField (opts : Options) (fid : Nat)
    (c : Component) (st : UpdState) :
    IdsFrame st (syncReferenceField opts fid c st) := by
  simp only [syncReferenceField]
  repeat' split
  all_goals try exact idsFrame_refl _
  all_goals try refine idsFrame_trans ?_ (idsFrame_modifyFootprint _ _ _ (fun _ => rfl))
  all_goals try refine idsFrame_trans ?_ (idsFrame_modifyPad _ _ _ _)
  all_goals try refine idsFrame_trans ?_ (idsFrame_modifyPad _ _ _ _)
  all_goals exact ⟨rfl, rfl, rfl⟩

theorem idsFrame_syncValueField (opts : Options) (fid : Nat)
    (c : Component) (st : UpdState) :
    IdsFrame st (syncValueField opts fid c st) := by
  simp only [syncValueField]
  repeat' split
  all_goals try exact idsFrame_refl _
  all_goals try refine idsFrame_trans ?_ (idsFrame_modifyFootprint _ _ _ (fun _ => rfl))
  all_goals try refine idsFrame_trans ?_ (idsFrame_modifyPad _ _ _ _)
  all_goals try refine idsFrame_trans ?_ (idsFrame_modifyPad _ _ _ _)
  all_goals exact ⟨rfl, rfl, rfl⟩

theorem idsFrame_syncPathField (opts : Options) (fid : Nat)
    (c : Component) (st : UpdState) :
    IdsFrame st (syncPathField opts fid c st) := by
  simp only [syncPathField]
  repeat' split
  all_goals try exact idsFrame_refl _
  all_goals try refine idsFrame_trans ?_ (idsFrame_modifyFootprint _ _ _ (fun _ => rfl))
  all_goals try refine idsFrame_trans ?_ (idsFrame_modifyPad _ _ _ _)
  all_goals try refine idsFrame_trans ?_ (idsFrame_modifyPad _ _ _ _)
  all_goals exact ⟨rfl, rfl, rfl⟩

theorem idsFrame_syncPropsField (opts : Options) (fid : Nat)
    (c : Component) (st : UpdState) :
    IdsFrame st (syncPropsField opts fid c st) := by
  simp only [syncPropsField]
  repeat' split
  all_goals try exact idsFrame_refl _
  all_goals try refine idsFrame_trans ?_ (idsFrame_modifyFootprint _ _ _ (fun _ => rfl))
  all_goals try refine idsFrame_trans ?_ (idsFrame_modifyPad _ _ _ _)
  all_goals try refine idsFrame_trans ?_ (idsFrame_modifyPad _ _ _ _)
  all_goals exact ⟨rfl, rfl, rfl⟩

theorem idsFrame_syncBomAttrField (opts : Options) (fid : Nat)
    (c : Component) (st : UpdState) :
    IdsFrame st (syncBomAttrField opts fid c st) := by
  simp only [syncBomAttrField]
  repeat' split
  all_goals try exact idsFrame_refl _
  all_goals try refine idsFrame_trans ?_ (idsFrame_modifyFootprint _ _ _ (fun _ => rfl))
  all_goals try refine idsFrame_trans ?_ (idsFrame_modifyPad _ _ _ _)
  all_goals try refine idsFrame_trans ?_ (idsFrame_modifyPad _ _ _ _)
  all_goals exact ⟨rfl, rfl, rfl⟩

theorem idsFrame_updateFootprintParameters (opts : Options) (fid : Nat)
    (c : Component) (st : UpdState) :
    IdsFrame st (updateFootprintParameters opts fid c st) := by
  simp only [updateFootprintParameters]
  refine idsFrame_trans (idsFrame_syncReferenceField opts fid c st) ?_
  refine idsFrame_trans (idsFrame_syncValueField opts fid c _) ?_
  refine idsFrame_trans (idsFrame_syncPathField opts fid c _) ?_
  refine idsFrame_trans (idsFrame_syncPropsField opts fid c _) ?_
  exact idsFrame_syncBomAttrField opts fid c _

theorem idsFrame_syncPinMetaFields (opts : Options) (fid i : Nat)
    (pad : Pad) (pinFunction pinType : String) (st : UpdState) :
    IdsFrame st (syncPinMetaFields opts fid i pad pinFunction pinType st) := by
  simp only [syncPinMetaFields]
  repeat' split
  all_goals try exact idsFrame_refl _
  all_goals try refine idsFrame_trans ?_ (idsFrame_modifyFootprint _ _ _ (fun _ => rfl))
  all_goals try refine idsFrame_trans ?_ (idsFrame_modifyPad _ _ _ _)
  all_goals try refine idsFrame_trans ?_ (idsFrame_modifyPad _ _ _ _)
  all_goals exact ⟨rfl, rfl, rfl⟩

theorem idsFrame_disconnectPadBranch (opts : Options) (fid i : Nat)
    (fref : String) (pad : Pad) (st : UpdState) :
    IdsFrame st (disconnectPadBranch opts fid i fref pad st) := by
  simp only [disconnectPadBranch]
  repeat' split
  all_goals try exact idsFrame_refl _
  all_goals try refine idsFrame_trans ?_ (idsFrame_modifyFootprint _ _ _ (fun _ => rfl))
  all_goals try refine idsFrame_trans ?_ (idsFrame_modifyPad _ _ _ _)
  all_goals try refine idsFrame_trans ?_ (idsFrame_modifyPad _ _ _ _)
  all_goals exact ⟨rfl, rfl, rfl⟩

theorem idsFrame_connectPadBranch (opts : Options) (fid i : Nat)
    (fref : String) (pad : Pad) (netName : String) (netinfoFound : Bool)
    (st : UpdState) :
    IdsFrame st (connectPadBranch opts fid i fref pad netName netinfoFound st) := by
  simp only [connectPadBranch]
  repeat' split
  all_goals try exact idsFrame_refl _
  all_goals try refine idsFrame_trans ?_ (idsFrame_modifyFootprint _ _ _ (fun _ => rfl))
  all_goals try refine idsFrame_trans ?_ (idsFrame_modifyPad _ _ _ _)
  all_goals try refine idsFrame_trans ?_ (idsFrame_modifyPad _ _ _ _)
  all_goals exact ⟨rfl, rfl, rfl⟩

theorem idsFrame_syncPadNetPart (opts : Options) (fid i : Nat)
    (fref : String) (pad : Pad) (net : ComponentNet) (st : UpdState) :
    IdsFrame st (syncPadNetPart opts fid i fref pad net st) := by
  simp only [syncPadNetPart]
  split
  · exact idsFrame_disconnectPadBranch _ _ _ _ _ _
  · split
    · split
      · refine idsFrame_trans ?_ (idsFrame_connectPadBranch _ _ _ _ _ _ _ _)
        exact ⟨rfl, rfl, rfl⟩
      · exact idsFrame_connectPadBranch _ _ _ _ _ _ _ _
    · split
      · exact ⟨rfl, rfl, rfl⟩
      · exact idsFrame_refl _

theorem idsFrame_syncOnePad (opts : Options) (fid : Nat) (c : Component)
    (st : UpdState) (i : Nat) : IdsFrame st (syncOnePad opts fid c st i) := by
  simp only [syncOnePad]
  split
  · exact idsFrame_refl _
  · split
    · exact idsFrame_refl _
    · exact idsFrame_trans (idsFrame_syncPinMetaFields _ _ _ _ _ _ _)
        (idsFrame_syncPadNetPart _ _ _ _ _ _ _)

theorem idsFrame_updateComponentPadConnections (opts : Options) (fid : Nat)
    (c : Component) (st : UpdState) :
    IdsFrame st (updateComponentPadConnections opts fid c st) := by
  simp only [updateComponentPadConnections]
  split
  · exact idsFrame_refl st
  · exact foldl_invariant _ (IdsFrame st) _ st (idsFrame_refl st)
      (fun s i h => idsFrame_trans h (idsFrame_syncOnePad opts fid c s i))

theorem idsFrame_applyComponentUpdates (opts : Options) (idx : Nat)
    (c : Component) (tmp : Option Nat) (st : UpdState) :
    IdsFrame st (applyComponentUpdates opts idx c tmp st) := by
  simp only [applyComponentUpdates]
  split
  · refine idsFrame_trans ?_ (idsFrame_trans
      (idsFrame_updateFootprintParameters _ _ _ _)
      (idsFrame_updateComponentPadConnections _ _ _ _))
    exact ⟨rfl, rfl, rfl⟩
  · exact idsFrame_refl _

/-- One step of the component loop, seen through footprint identities: the
board's footprint id list is unchanged, the fresh-id source only grows, and
every staged footprint id is either an old staged id or fresh. -/
def FreshStep (st st' : UpdState) : Prop :=
  st'.board.footprints.map Footprint.id = st.board.footprints.map Footprint.id
  ∧ st.nextId ≤ st'.nextId
  ∧ ∀ x ∈ st'.commitAdds.map Footprint.id,
      x ∈ st.commitAdds.map Footprint.id ∨ st.nextId ≤ x

theorem freshStep_refl (st : UpdState) : FreshStep st st :=
  ⟨rfl, Nat.le_refl _, fun _ hx => Or.inl hx⟩

theorem freshStep_trans {a b c : UpdState} (h1 : FreshStep a b)
    (h2 : FreshStep b c) : FreshStep a c := by
  refine ⟨h2.1.trans h1.1, Nat.le_trans h1.2.1 h2.2.1, ?_⟩
  intro x hx
  rcases h2.2.2 x hx with hb | hge
  · exact (h1.2.2 x hb).imp_right id
  · exact Or.inr (Nat.le_trans h1.2.1 hge)

theorem freshStep_of_idsFrame {a b : UpdState} (h : IdsFrame a b) :
    FreshStep a b := by
  refine ⟨h.1, Nat.le_of_eq h.2.2.symm, ?_⟩
  intro x hx
  rw [h.2.1] at hx
  exact Or.inl hx

theorem freshStep_addNewComponent (opts : Options) (deps : Deps)
    (c : Component) (st : UpdState) :
    FreshStep st (addNewComponent opts deps c st).snd := by
  simp only [addNewComponent]
  split
  · exact ⟨rfl, Nat.le_refl _, fun _ hx => Or.inl hx⟩
  · split
    · exact ⟨rfl, Nat.le_refl _, fun _ hx => Or.inl hx⟩
    · split
      · refine ⟨rfl, Nat.le_succ _, ?_⟩
        intro x hx
        simp only [List.map_append, List.mem_append, List.map_cons,
          List.map_nil, List.mem_singleton] at hx
        rcases hx with hx | hx
        · exact Or.inl hx
        · rw [hx]
          exact Or.inr (Nat.le_refl _)
      · exact ⟨rfl, Nat.le_refl _, fun _ hx => Or.inl hx⟩

theorem freshStep_replaceComponent (opts : Options) (deps : Deps)
    (old : Footprint) (c : Component) (st : UpdState) :
    FreshStep st (replaceComponent opts deps old c st).snd := by
  simp only [replaceComponent, exchangeFootprint]
  split
  · exact ⟨rfl, Nat.le_refl _, fun _ hx => Or.inl hx⟩
  · split
    · exact ⟨rfl, Nat.le_refl _, fun _ hx => Or.inl hx⟩
    · split
      · refine ⟨rfl, Nat.le_succ _, ?_⟩
        intro x hx
        simp only [List.map_append, List.mem_append, List.map_cons,
          List.map_nil, List.mem_singleton] at hx
        rcases hx with hx | hx
        · exact Or.inl hx
        · rw [hx]
          exact Or.inr (Nat.le_refl _)
      · exact ⟨rfl, Nat.le_refl _, fun _ hx => Or.inl hx⟩

set_option maxHeartbeats 2000000 in
theorem freshStep_matchScanStep (opts : Options) (deps : Deps) (idx : Nat)
    (c : Component) (acc : Nat × UpdState) (i : Nat) :
    FreshStep acc.snd (matchScanStep opts deps idx c acc i).snd := by
  simp only [matchScanStep]
  split
  · exact freshStep_refl _
  rename_i f heq
  split
  · split
    · exact freshStep_trans (freshStep_replaceComponent opts deps f c acc.snd)
        (freshStep_of_idsFrame (idsFrame_applyComponentUpdates opts idx c
          (replaceComponent opts deps f c acc.snd).fst
          (replaceComponent opts deps f c acc.snd).snd))
    · have h9 := freshStep_of_idsFrame (idsFrame_applyComponentUpdates opts idx c
        (some f.id) acc.snd)
      dsimp only
      exact h9
  · exact freshStep_refl _

theorem freshStep_scanFold (opts : Options) (deps : Deps) (idx : Nat)
    (c : Component) (l : List Nat) (n : Nat) (st : UpdState) :
    FreshStep st (List.foldl (matchScanStep opts deps idx c) (n, st) l).snd :=
  foldl_invariant _ (fun (acc : Nat × UpdState) => FreshStep st acc.snd) _ _
    (freshStep_refl _)
    (fun s a h => freshStep_trans h (freshStep_matchScanStep _ _ _ _ _ _))

theorem freshStep_processComponent (opts : Options) (deps : Deps)
    (boundary : Option Nat) (st : UpdState) (ic : Nat × Component) :
    FreshStep st (processComponent opts deps boundary st ic) := by
  simp only [processComponent]
  split
  · exact freshStep_refl st
  · refine freshStep_trans (?_ : FreshStep st
      (reportMsg st .info (.processing ic.snd.reference ic.snd.fpid))) ?_
    · exact ⟨rfl, Nat.le_refl _, fun _ hx => Or.inl hx⟩
    · split
      · refine freshStep_trans ?_
          (freshStep_of_idsFrame (idsFrame_applyComponentUpdates _ _ _ _ _))
        refine freshStep_trans ?_ (freshStep_addNewComponent _ _ _ _)
        exact freshStep_scanFold _ _ _ _ _ _ _
      · split
        · exact ⟨(freshStep_scanFold _ _ _ _ _ _ _).1,
            (freshStep_scanFold _ _ _ _ _ _ _).2.1,
            (freshStep_scanFold _ _ _ _ _ _ _).2.2⟩
        · exact freshStep_scanFold _ _ _ _ _ _ _

theorem freshStep_componentLoop (opts : Options) (deps : Deps)
    (boundary : Option Nat) (netlist : List Component) (st : UpdState) :
    FreshStep st (componentLoop opts deps boundary netlist st) :=
  foldl_invariant _ (FreshStep st) _ _ (freshStep_refl st)
    (fun s a h => freshStep_trans h (freshStep_processComponent _ _ _ _ _))

/-! ## C9: matching scans only pre-existing footprints -/

/-- C9: throughout the main component loop, the board's footprint list
keeps exactly its pre-pass identities (additions are only staged in the
transaction), and every footprint staged during the loop carries an id
distinct from every pre-existing footprint's.  Since each match scan draws
its candidates from the board's footprint list, a footprint created for an
earlier component of the same pass is never a match candidate for a later
component; the captured last-pre-existing-footprint boundary index bounds
the scan within that unchanged list. -/
theorem c9_matching_scans_only_preexisting_footprints
    (opts : Options) (deps : Deps) (boundary : Option Nat)
    (netlist : List Component) (st : UpdState)
    (hFresh : ∀ f ∈ st.board.footprints, f.id < st.nextId)
    (hAdds : st.commitAdds = []) :
    (componentLoop opts deps boundary netlist st).board.footprints.map
        Footprint.id = st.board.footprints.map Footprint.id
    ∧ ∀ f ∈ (componentLoop opts deps boundary netlist st).commitAdds,
        f.id ∉ st.board.footprints.map Footprint.id := by
  have h := freshStep_componentLoop opts deps boundary netlist st
  refine ⟨h.1, ?_⟩
  intro f hf hmem
  rcases h.2.2 f.id (List.mem_map_of_mem Footprint.id hf) with hold | hge
  · rw [hAdds] at hold
    simp at hold
  · rcases List.mem_map.mp hmem with ⟨g, hg, hgid⟩
    have := hFresh g hg
    omega

def c9Board : Board :=
  ⟨[⟨1, "R1", "V", "P", "L:F", [], false, false, false, [], (0, 0)⟩],
   [⟨"", true⟩], [], []⟩
def c9Opts : Options := ⟨true, false, false, true, false, false⟩
def c9Deps : Deps :=
  ⟨fun s => some ⟨0, "REF**", "V2", "", s, [], false, false, false, [], (0, 0)⟩,
   fun _ => [], true, true, 0, 0, 0, 0, 100, 100⟩
def c9Component : Component := ⟨"R2", "V2", "P2", "L:G", [], []⟩

theorem c9_witness :
    (componentLoop c9Opts c9Deps (some 0) [c9Component]
        (initState c9Board)).board.footprints.map Footprint.id =
      (initState c9Board).board.footprints.map Footprint.id
    ∧ ∀ f ∈ (componentLoop c9Opts c9Deps (some 0) [c9Component]
        (initState c9Board)).commitAdds,
        f.id ∉ (initState c9Board).board.footprints.map Footprint.id :=
  c9_matching_scans_only_preexisting_footprints c9Opts c9Deps (some 0)
    [c9Component] (initState c9Board) (by decide) rfl

/-! ## C8: failure of `addNewComponent` is local and recoverable -/

/-- C8: when a component matched by no existing footprint has an empty
footprint identifier or a failing library lookup, the per-component
processing reports an Error-severity message and bumps the error counter,
and changes nothing else — the final state is exactly the input state plus
the Processing info entry, the error entry and the incremented counter (no
footprint added, no commit entry, no other field touched); and the main
loop keeps processing every other (non-excluded) component, each of which
still contributes its Processing entry to the report. -/
theorem c8_add_new_component_failure :
    (∀ (opts : Options) (deps : Deps) (boundary : Option Nat) (st : UpdState)
        (idx : Nat) (c : Component),
        hasProp c.props "exclude_from_board" = false →
        (∀ i f, st.board.footprints.get? i = some f →
          ¬(if opts.lookupByTimestamp = true then f.path = c.path
            else eqNoCase f.reference c.reference = true)) →
        (c.fpid = "" ∨ deps.loadFootprint c.fpid = none) →
        processComponent opts deps boundary st (idx, c) =
          { reportMsg (reportMsg st .info (.processing c.reference c.fpid))
              .error
              (if c.fpid = "" then Msg.cannotAddNoFootprint c.reference
               else Msg.cannotAddNotFound c.reference c.fpid) with
            errorCount := st.errorCount + 1 })
    ∧ (∀ (opts : Options) (deps : Deps) (boundary : Option Nat)
        (netlist : List Component) (st : UpdState) (p : Nat × Component),
        p ∈ netlist.enum →
        hasProp p.snd.props "exclude_from_board" = false →
        (Severity.info, Msg.processing p.snd.reference p.snd.fpid)
          ∈ (componentLoop opts deps boundary netlist st).report) := by
  constructor
  · intro opts deps boundary st idx c hExcl hNoMatch hFail
    simp only [processComponent, hExcl]
    rw [if_neg (by simp)]
    have hstep : ∀ (a : Nat),
        matchScanStep opts deps idx c
          (0, reportMsg st .info (.processing c.reference c.fpid)) a =
          (0, reportMsg st .info (.processing c.reference c.fpid)) := by
      intro a
      simp only [matchScanStep]
      cases hg : (reportMsg st .info
          (.processing c.reference c.fpid)).board.footprints.get? a with
      | none => rfl
      | some f =>
          have hnm := hNoMatch a f (by rw [board_reportMsg] at hg; exact hg)
          have hnm2 : matchesC opts c f = false := by
            cases hmc : matchesC opts c f with
            | false => rfl
            | true =>
                exfalso
                apply hnm
                simp only [matchesC] at hmc
                by_cases hl : opts.lookupByTimestamp = true
                · rw [if_pos hl] at hmc ⊢
                  exact of_decide_eq_true hmc
                · rw [if_neg hl] at hmc ⊢
                  exact hmc
          simp [hnm2]
    have hfold : ∀ l : List Nat,
        List.foldl (matchScanStep opts deps idx c)
          (0, reportMsg st .info (.processing c.reference c.fpid)) l =
          (0, reportMsg st .info (.processing c.reference c.fpid)) := by
      intro l
      refine foldl_invariant _ (fun acc => acc = (0, _)) l _ rfl ?_
      intro s a hs; rw [hs, hstep]
    rw [hfold]
    by_cases hf : c.fpid = ""
    · simp [addNewComponent, applyComponentUpdates, hf]
    · have hload : deps.loadFootprint c.fpid = none := hFail.resolve_left hf
      simp [addNewComponent, applyComponentUpdates, hf, hload]
  · intro opts deps boundary netlist st p hp hExcl
    exact processing_mem_processFold opts deps boundary netlist.enum st p hp hExcl

def c8Opts : Options := ⟨true, false, false, true, false, false⟩
def c8Deps : Deps := ⟨fun _ => none, fun _ => [], true, true, 0, 0, 0, 0, 100, 100⟩
def c8Component : Component := ⟨"R9", "V", "P9", "L:MISSING", [], []⟩
def c8State : UpdState := initState ⟨[], [⟨"", true⟩], [], []⟩

theorem c8_witness :
    (processComponent c8Opts c8Deps none c8State (0, c8Component) =
      { reportMsg (reportMsg c8State .info (.processing "R9" "L:MISSING"))
          .error
          (if ("L:MISSING" : String) = "" then Msg.cannotAddNoFootprint "R9"
           else Msg.cannotAddNotFound "R9" "L:MISSING") with
        errorCount := c8State.errorCount + 1 })
    ∧ ((Severity.info, Msg.processing "R9" "L:MISSING")
        ∈ (componentLoop c8Opts c8Deps none [c8Component] c8State).report) :=
  ⟨c8_add_new_component_failure.1 c8Opts c8Deps none c8State 0 c8Component
      (by decide) (by intro i f h; cases i <;> simp [c8State, initState] at h)
      (Or.inr rfl),
   c8_add_new_component_failure.2 c8Opts c8Deps none [c8Component] c8State
      (0, c8Component) (by simp [List.enum]) (by decide)⟩

/-! ## Frame lemmas for the sweep and the finalization phases -/

theorem markFold_footprints (pads : List Pad) (b : Board) :
    (pads.foldl (fun b p => markNetCurrent b p.netname) b).footprints =
      b.footprints := by
  induction pads generalizing b with
  | nil => rfl
  | cons p t ih => exact (ih (markNetCurrent b p.netname)).trans rfl

theorem markFold_zones (pads : List Pad) (b : Board) :
    (pads.foldl (fun b p => markNetCurrent b p.netname) b).zones = b.zones := by
  induction pads generalizing b with
  | nil => rfl
  | cons p t ih => exact (ih (markNetCurrent b p.netname)).trans rfl

theorem markFold_tracks (pads : List Pad) (b : Board) :
    (pads.foldl (fun b p => markNetCurrent b p.netname) b).tracks = b.tracks := by
  induction pads generalizing b with
  | nil => rfl
  | cons p t ih => exact (ih (markNetCurrent b p.netname)).trans rfl

set_option maxHeartbeats 4000000 in
/-- The unused-footprint sweep step changes no footprint, no counter and no
staged addition; it can stage at most its own footprint for removal, and it
only appends to the report. -/
theorem sweepOne_frame (opts : Options) (netlist : List Component)
    (st : UpdState) (g : Footprint) :
    (sweepOneFootprint opts netlist st g).board.footprints = st.board.footprints
    ∧ (sweepOneFootprint opts netlist st g).warningCount = st.warningCount
    ∧ (sweepOneFootprint opts netlist st g).errorCount = st.errorCount
    ∧ (sweepOneFootprint opts netlist st g).commitAdds = st.commitAdds
    ∧ (∀ x ∈ (sweepOneFootprint opts netlist st g).commitRemoves,
        x ∈ st.commitRemoves ∨ x = g.id)
    ∧ ReportMono st (sweepOneFootprint opts netlist st g) := by
  simp only [sweepOneFootprint]
  repeat' split
  all_goals refine ⟨?_, rfl, rfl, rfl, ?_, ?_⟩
  all_goals first
    | exact rfl
    | exact markFold_footprints _ _
    | exact fun x hx => Or.inl hx
    | exact fun x hx => hx
    | (intro x hx; simp [hx])
    | (intro x hx
       rcases List.mem_append.mp hx with h | h
       · exact Or.inl h
       · exact Or.inr (by simpa using h))

theorem map_id_modifyPad_footprints (st : UpdState) (fid i : Nat)
    (g : Pad → Pad) :
    (modifyPad st fid i g).board.footprints.map Footprint.id =
      st.board.footprints.map Footprint.id :=
  (idsFrame_modifyPad st fid i g).1

theorem map_id_modifyPad_commitAdds (st : UpdState) (fid i : Nat)
    (g : Pad → Pad) :
    (modifyPad st fid i g).commitAdds.map Footprint.id =
      st.commitAdds.map Footprint.id :=
  (idsFrame_modifyPad st fid i g).2.1

set_option maxHeartbeats 4000000 in
/-- One pad-scan step of `deleteSinglePadNets` keeps footprint identities,
every counter and the staged commit; it only appends to the report. -/
theorem pruneStep_frame (opts : Options) (acc : PruneAcc) (r : PadRef) :
    (pruneStep opts acc r).st.board.footprints.map Footprint.id =
      acc.st.board.footprints.map Footprint.id
    ∧ (pruneStep opts acc r).st.warningCount = acc.st.warningCount
    ∧ (pruneStep opts acc r).st.errorCount = acc.st.errorCount
    ∧ (pruneStep opts acc r).st.commitAdds.map Footprint.id =
        acc.st.commitAdds.map Footprint.id
    ∧ (pruneStep opts acc r).st.commitRemoves = acc.st.commitRemoves
    ∧ ReportMono acc.st (pruneStep opts acc r).st := by
  simp only [pruneStep, setPadNetname]
  repeat' split
  all_goals refine ⟨?_, rfl, rfl, ?_, rfl, ?_⟩
  all_goals first
    | exact rfl
    | exact map_id_modifyPad_footprints _ _ _ _
    | exact map_id_modifyPad_commitAdds _ _ _ _
    | exact fun x hx => hx
    | (intro x hx; simp [hx])

set_option maxHeartbeats 4000000 in
/-- `deleteSinglePadNets` keeps footprint identities, every counter and the
staged commit; it only appends to the report. -/
theorem deleteSinglePadNets_frame (opts : Options) (st : UpdState) :
    (deleteSinglePadNets opts st).board.footprints.map Footprint.id =
      st.board.footprints.map Footprint.id
    ∧ (deleteSinglePadNets opts st).warningCount = st.warningCount
    ∧ (deleteSinglePadNets opts st).errorCount = st.errorCount
    ∧ (deleteSinglePadNets opts st).commitAdds.map Footprint.id =
        st.commitAdds.map Footprint.id
    ∧ (deleteSinglePadNets opts st).commitRemoves = st.commitRemoves
    ∧ ReportMono st (deleteSinglePadNets opts st) := by
  simp only [deleteSinglePadNets, setPadNetname]
  have hacc : ∀ (l : List PadRef) (acc : PruneAcc),
      (l.foldl (pruneStep opts) acc).st.board.footprints.map Footprint.id =
        acc.st.board.footprints.map Footprint.id
      ∧ (l.foldl (pruneStep opts) acc).st.warningCount = acc.st.warningCount
      ∧ (l.foldl (pruneStep opts) acc).st.errorCount = acc.st.errorCount
      ∧ (l.foldl (pruneStep opts) acc).st.commitAdds.map Footprint.id =
          acc.st.commitAdds.map Footprint.id
      ∧ (l.foldl (pruneStep opts) acc).st.commitRemoves = acc.st.commitRemoves
      ∧ ReportMono acc.st (l.foldl (pruneStep opts) acc).st := by
    intro l
    induction l with
    | nil =>
        exact fun acc => ⟨rfl, rfl, rfl, rfl, rfl, reportMono_refl _⟩
    | cons x xs ih =>
        intro acc
        have h1 := pruneStep_frame opts acc x
        have h2 := ih (pruneStep opts acc x)
        exact ⟨h2.1.trans h1.1, h2.2.1.trans h1.2.1, h2.2.2.1.trans h1.2.2.1,
          h2.2.2.2.1.trans h1.2.2.2.1, h2.2.2.2.2.1.trans h1.2.2.2.2.1,
          reportMono_trans h1.2.2.2.2.2 h2.2.2.2.2.2⟩
  have hmain := hacc (sortPadsByNetname opts st (boardPadRefs st.board))
    ⟨st, 0, "", none⟩
  repeat' split
  all_goals first
    | exact hmain
    | refine ⟨?_, hmain.2.1, hmain.2.2.1, ?_, hmain.2.2.2.2.1, ?_⟩
  all_goals first
    | exact (map_id_modifyPad_footprints _ _ _ _).trans hmain.1
    | exact (map_id_modifyPad_commitAdds _ _ _ _).trans hmain.2.2.2.1
    | exact hmain.1
    | exact hmain.2.2.2.1
    | exact fun x hx => hmain.2.2.2.2.2 x hx

theorem updateCopperZoneNets_empty (opts : Options) (netlist : List Component)
    (st : UpdState) (hz : st.board.zones = []) (ht : st.board.tracks = []) :
    updateCopperZoneNets opts netlist st = st := by
  simp [updateCopperZoneNets, hz, ht]

/-- The stale-net report loop only appends to the report. -/
theorem removalFold_frame (l : List Net) (st : UpdState) :
    (l.foldl (fun st n =>
        if !n.isCurrent then reportMsg st .action (.removeUnusedNet n.name)
        else st) st).board = st.board
    ∧ (l.foldl (fun st n =>
        if !n.isCurrent then reportMsg st .action (.removeUnusedNet n.name)
        else st) st).warningCount = st.warningCount
    ∧ (l.foldl (fun st n =>
        if !n.isCurrent then reportMsg st .action (.removeUnusedNet n.name)
        else st) st).commitAdds = st.commitAdds
    ∧ (l.foldl (fun st n =>
        if !n.isCurrent then reportMsg st .action (.removeUnusedNet n.name)
        else st) st).commitRemoves = st.commitRemoves
    ∧ (l.foldl (fun st n =>
        if !n.isCurrent then reportMsg st .action (.removeUnusedNet n.name)
        else st) st).addedNets = st.addedNets
    ∧ ReportMono st (l.foldl (fun st n =>
        if !n.isCurrent then reportMsg st .action (.removeUnusedNet n.name)
        else st) st) := by
  induction l generalizing st with
  | nil => exact ⟨rfl, rfl, rfl, rfl, rfl, reportMono_refl _⟩
  | cons n t ih =>
      simp only [List.foldl_cons]
      split
      · have h := ih (reportMsg st .action (.removeUnusedNet n.name))
        refine ⟨h.1, h.2.1, h.2.2.1, h.2.2.2.1, h.2.2.2.2.1, ?_⟩
        refine reportMono_trans (fun x hx => ?_) h.2.2.2.2.2
        simp [hx]
      · exact ih st

theorem reportStaleNets_frame (st : UpdState) :
    (reportStaleNets st).board = st.board
    ∧ (reportStaleNets st).warningCount = st.warningCount
    ∧ (reportStaleNets st).commitAdds = st.commitAdds
    ∧ (reportStaleNets st).commitRemoves = st.commitRemoves
    ∧ (reportStaleNets st).addedNets = st.addedNets
    ∧ ReportMono st (reportStaleNets st) :=
  removalFold_frame st.board.nets st

/-! ## C7: locked unused footprints are kept, warned about, not counted -/

/-- With no netlist entry, deletion enabled, no board-only attribute and a
locked footprint, the sweep keeps the footprint: it reports the warning,
stages nothing, and only marks the pad nets current. -/
theorem sweepOne_keep_locked (opts : Options) (st : UpdState) (f : Footprint)
    (hDry : opts.isDryRun = false) (hDel : opts.deleteUnusedComponents = true)
    (hLock : f.locked = true) (hBO : f.boardOnly = false) :
    sweepOneFootprint opts [] st f =
      { reportMsg st .warning (.cannotRemoveLocked f.reference) with
        board := f.pads.foldl (fun b p => markNetCurrent b p.netname)
          st.board } := by
  simp [sweepOneFootprint, hDry, hDel, hLock, hBO, getComponentByReference,
    getComponentByPath, reportMsg]

/-- Iterated sweep frame: footprints, counters and staged additions are
unchanged; staged removals only grow by ids of swept footprints; the
report only grows. -/
theorem sweepFold_frame (opts : Options) (netlist : List Component) :
    ∀ (l : List Footprint) (st : UpdState),
      (l.foldl (sweepOneFootprint opts netlist) st).board.footprints =
        st.board.footprints
      ∧ (l.foldl (sweepOneFootprint opts netlist) st).warningCount =
          st.warningCount
      ∧ (l.foldl (sweepOneFootprint opts netlist) st).errorCount =
          st.errorCount
      ∧ (l.foldl (sweepOneFootprint opts netlist) st).commitAdds =
          st.commitAdds
      ∧ (∀ x ∈ (l.foldl (sweepOneFootprint opts netlist) st).commitRemoves,
          x ∈ st.commitRemoves ∨ ∃ g ∈ l, x = g.id)
      ∧ ReportMono st (l.foldl (sweepOneFootprint opts netlist) st) := by
  intro l
  induction l with
  | nil =>
      exact fun st => ⟨rfl, rfl, rfl, rfl, fun x hx => Or.inl hx,
        reportMono_refl _⟩
  | cons g t ih =>
      intro st
      simp only [List.foldl_cons]
      have h1 := sweepOne_frame opts netlist st g
      have h2 := ih (sweepOneFootprint opts netlist st g)
      refine ⟨h2.1.trans h1.1, h2.2.1.trans h1.2.1, h2.2.2.1.trans h1.2.2.1,
        h2.2.2.2.1.trans h1.2.2.2.1, ?_, reportMono_trans h1.2.2.2.2.2
          h2.2.2.2.2.2⟩
      intro x hx
      rcases h2.2.2.2.2.1 x hx with hx1 | ⟨g', hg', hx2⟩
      · rcases h1.2.2.2.2.1 x hx1 with hx2 | hx2
        · exact Or.inl hx2
        · exact Or.inr ⟨g, List.mem_cons_self g t, hx2⟩
      · exact Or.inr ⟨g', List.mem_cons_of_mem g hg', hx2⟩

/-- Sweeping a list that contains the locked footprint `f` (with distinct
ids): footprints and warning count unchanged, no staged removal carries
`f.id`, and the cannot-remove warning is in the report. -/
theorem sweepFold_locked (opts : Options) (f : Footprint)
    (hDry : opts.isDryRun = false) (hDel : opts.deleteUnusedComponents = true)
    (hLock : f.locked = true) (hBO : f.boardOnly = false) :
    ∀ (l : List Footprint) (st : UpdState),
      f ∈ l → (l.map Footprint.id).Nodup →
      (l.foldl (sweepOneFootprint opts []) st).board.footprints =
        st.board.footprints
      ∧ (l.foldl (sweepOneFootprint opts []) st).warningCount = st.warningCount
      ∧ (∀ x ∈ (l.foldl (sweepOneFootprint opts []) st).commitRemoves,
          x ∈ st.commitRemoves ∨ x ≠ f.id)
      ∧ (Severity.warning, Msg.cannotRemoveLocked f.reference)
          ∈ (l.foldl (sweepOneFootprint opts []) st).report := by
  intro l
  induction l with
  | nil => intro st hf; cases hf
  | cons g t ih =>
      intro st hf hNodup
      have hNodupT : (t.map Footprint.id).Nodup := by
        simp only [List.map_cons, List.nodup_cons] at hNodup
        exact hNodup.2
      have hgNotT : g.id ∉ t.map Footprint.id := by
        simp only [List.map_cons, List.nodup_cons] at hNodup
        exact hNodup.1
      simp only [List.foldl_cons]
      rcases List.mem_cons.mp hf with heq | hmem
      · -- the head is f itself
        subst heq
        rw [sweepOne_keep_locked opts st f hDry hDel hLock hBO]
        have h2 := sweepFold_frame opts [] t
          { reportMsg st .warning (.cannotRemoveLocked f.reference) with
            board := f.pads.foldl (fun b p => markNetCurrent b p.netname)
              st.board }
        refine ⟨h2.1.trans (markFold_footprints _ _), h2.2.1.trans rfl, ?_, ?_⟩
        · intro x hx
          rcases h2.2.2.2.2.1 x hx with hx1 | ⟨g', hg', hx2⟩
          · exact Or.inl hx1
          · refine Or.inr ?_
            intro hcontra
            rw [hx2] at hcontra
            exact hgNotT (hcontra ▸ List.mem_map_of_mem Footprint.id hg')
        · refine h2.2.2.2.2.2 _ ?_
          simp
      · -- f is further down the list
        have hgne : g.id ≠ f.id := by
          intro hcontra
          exact hgNotT (hcontra ▸ List.mem_map_of_mem Footprint.id hmem)
        have h1 := sweepOne_frame opts [] st g
        have h2 := ih (sweepOneFootprint opts [] st g) hmem hNodupT
        refine ⟨h2.1.trans h1.1, h2.2.1.trans h1.2.1, ?_, h2.2.2.2⟩
        intro x hx
        rcases h2.2.2.1 x hx with hx1 | hx2
        · rcases h1.2.2.2.2.1 x hx1 with hx3 | hx3
          · exact Or.inl hx3
          · exact Or.inr (hx3 ▸ hgne)
        · exact Or.inr hx2

/-- A footprint id that no staged removal names survives the filter of the
commit push. -/
theorem mem_map_id_filter_removes (l : List Footprint) (removes : List Nat)
    (adds : List Footprint) (x : Nat) (hx : x ∈ l.map Footprint.id)
    (hns : ∀ y ∈ removes, y ≠ x) :
    x ∈ ((l.filter (fun f => !(removes.contains f.id))) ++ adds).map
      Footprint.id := by
  rcases List.mem_map.mp hx with ⟨g, hg, hgid⟩
  refine List.mem_map.mpr ⟨g, List.mem_append_left _ ?_, hgid⟩
  refine List.mem_filter.mpr ⟨hg, ?_⟩
  have hnm : g.id ∉ removes := fun hmem => hns g.id hmem hgid
  simpa using hnm

/-- Commit-mode finalization with an empty netlist: the warning count is
unchanged, the report only grows, and every footprint id that no staged
removal names is still on the board afterwards. -/
theorem finalizeUpdate_commit_facts (opts : Options) (st : UpdState)
    (hDry : opts.isDryRun = false) :
    (finalizeUpdate opts [] st).warningCount = st.warningCount
    ∧ ReportMono st (finalizeUpdate opts [] st)
    ∧ ∀ x ∈ st.board.footprints.map Footprint.id,
        (∀ y ∈ st.commitRemoves, y ≠ x) →
        x ∈ (finalizeUpdate opts [] st).board.footprints.map Footprint.id := by
  have hDryB : (!opts.isDryRun) = true := by rw [hDry]; rfl
  simp only [finalizeUpdate, hDryB, if_true, testConnectivity, List.enum_nil,
    List.foldl_nil]
  split
  · -- single-pad-net pruning enabled
    have hp := deleteSinglePadNets_frame opts st
    have hr := reportStaleNets_frame (deleteSinglePadNets opts st)
    refine ⟨?_, ?_, ?_⟩
    · show (reportStaleNets (deleteSinglePadNets opts st)).warningCount =
        st.warningCount
      rw [hr.2.1, hp.2.1]
    · intro x hx
      exact hr.2.2.2.2.2 x (hp.2.2.2.2.2 x hx)
    · intro x hx hns
      refine mem_map_id_filter_removes _ _ _ x ?_ ?_
      · show x ∈ (reportStaleNets
            (deleteSinglePadNets opts st)).board.footprints.map Footprint.id
        rw [hr.1, hp.1]
        exact hx
      · intro y hy
        have hy2 : y ∈ (reportStaleNets
            (deleteSinglePadNets opts st)).commitRemoves := hy
        rw [hr.2.2.2.1, hp.2.2.2.2.1] at hy2
        exact hns y hy2
  · -- pruning disabled
    have hr := reportStaleNets_frame st
    refine ⟨?_, ?_, ?_⟩
    · show (reportStaleNets st).warningCount = st.warningCount
      rw [hr.2.1]
    · intro x hx
      exact hr.2.2.2.2.2 x hx
    · intro x hx hns
      refine mem_map_id_filter_removes _ _ _ x ?_ ?_
      · show x ∈ (reportStaleNets st).board.footprints.map Footprint.id
        rw [hr.1]
        exact hx
      · intro y hy
        have hy2 : y ∈ (reportStaleNets st).commitRemoves := hy
        rw [hr.2.2.2.1] at hy2
        exact hns y hy2

/-- C7 (amended): with unused-component deletion enabled, a locked board
footprint with no matching netlist component and no board-only attribute
is not removed by a committing pass, and the cannot-remove Warning is
reported — but the warning counter surfaced to the caller is NOT
incremented by this path: on a board with no zones and no tracks (the only
warning sources that do increment the counter) the final warning count is
0. -/
theorem c7_locked_unused_footprint_kept_and_uncounted
    (opts : Options) (deps : Deps) (board : Board) (f : Footprint)
    (hDry : opts.isDryRun = false) (hDel : opts.deleteUnusedComponents = true)
    (hZ : board.zones = []) (hT : board.tracks = [])
    (hf : f ∈ board.footprints) (hLock : f.locked = true)
    (hBO : f.boardOnly = false)
    (hNodup : (board.footprints.map Footprint.id).Nodup) :
    f.id ∈ (UpdateNetlist opts deps board []).board.footprints.map Footprint.id
    ∧ (Severity.warning, Msg.cannotRemoveLocked f.reference)
        ∈ (UpdateNetlist opts deps board []).report
    ∧ (UpdateNetlist opts deps board []).warningCount = 0 := by
  have hDryB : (!opts.isDryRun) = true := by rw [hDry]; rfl
  simp only [UpdateNetlist, componentLoop, List.enum_nil, List.foldl_nil,
    hDry, hDryB, Bool.not_false, eq_self_iff_true, if_true,
    Bool.false_eq_true, if_false]
  have hstZ : (markAllNetsStale
      (cacheCopperZoneConnections deps (initState board))).board.zones = [] := hZ
  have hstT : (markAllNetsStale
      (cacheCopperZoneConnections deps (initState board))).board.tracks = [] := hT
  rw [updateCopperZoneNets_empty opts [] _ hstZ hstT]
  have hsw := sweepFold_locked opts f hDry hDel hLock hBO
    (markAllNetsStale (cacheCopperZoneConnections deps
      (initState board))).board.footprints
    (markAllNetsStale (cacheCopperZoneConnections deps (initState board)))
    (by exact hf) (by exact hNodup)
  have hfin := finalizeUpdate_commit_facts opts
    ((markAllNetsStale (cacheCopperZoneConnections deps
        (initState board))).board.footprints.foldl
      (sweepOneFootprint opts [])
      (markAllNetsStale (cacheCopperZoneConnections deps (initState board))))
    hDry
  refine ⟨?_, ?_, ?_⟩
  · refine hfin.2.2 f.id ?_ ?_
    · rw [hsw.1]
      exact List.mem_map_of_mem Footprint.id hf
    · intro y hy
      rcases hsw.2.2.1 y hy with hc | hne
      · exact absurd (show y ∈ ([] : List Nat) from hc) (List.not_mem_nil y)
      · exact hne
  · exact hfin.2.1 _ hsw.2.2.2
  · exact (hfin.1).trans ((hsw.2.1).trans rfl)

def c7aBoard : Board :=
  ⟨[⟨1, "U1", "V", "P", "L:F", [], false, false, true, [], (0, 0)⟩],
   [⟨"", true⟩], [], []⟩
def c7aOpts : Options := ⟨true, true, false, true, false, false⟩
def c7aDeps : Deps := ⟨fun _ => none, fun _ => [], true, true, 0, 0, 0, 0, 100, 100⟩
def c7aFootprint : Footprint :=
  ⟨1, "U1", "V", "P", "L:F", [], false, false, true, [], (0, 0)⟩

theorem c7_witness :
    (1 ∈ (UpdateNetlist c7aOpts c7aDeps c7aBoard []).board.footprints.map
        Footprint.id)
    ∧ ((Severity.warning, Msg.cannotRemoveLocked "U1")
        ∈ (UpdateNetlist c7aOpts c7aDeps c7aBoard []).report)
    ∧ ((UpdateNetlist c7aOpts c7aDeps c7aBoard []).warningCount = 0) :=
  c7_locked_unused_footprint_kept_and_uncounted c7aOpts c7aDeps c7aBoard
    c7aFootprint rfl rfl rfl rfl (by decide) rfl rfl (by decide)

/-! ## Concrete fixtures

Small boards and netlists used by the concrete evaluations below.  Each
claim keeps its own fixtures. -/

/-! ### C4 fixtures: a single-pad net with an attached copper zone that is
the last net-name group of the scan, and the same situation with a later
group behind it. -/

def c4Pad : Pad := ⟨"1", "", "", "Z", true, false⟩
def c4PadLater : Pad := ⟨"2", "", "", "ZZ", true, false⟩
def c4Zone : Zone := ⟨"Z", true, false⟩
def c4Board : Board :=
  ⟨[⟨1, "R1", "V", "P", "L:F", [], false, false, false, [c4Pad], (0, 0)⟩],
   [⟨"", true⟩, ⟨"Z", true⟩], [c4Zone], []⟩
def c4BoardInterior : Board :=
  ⟨[⟨1, "R1", "V", "P", "L:F", [], false, false, false, [c4Pad, c4PadLater], (0, 0)⟩],
   [⟨"", true⟩, ⟨"Z", true⟩, ⟨"ZZ", true⟩], [c4Zone], []⟩
def c4Opts : Options := ⟨true, false, false, true, false, false⟩

/-- C4: In `deleteSinglePadNets`, the zone test is skipped for the last
net-name group of the scan.  On `c4Board` the net `Z` is bound to exactly
one pad and to an electrically-relevant copper zone, and `Z` is the last
(only) group, yet the pad is cleared back to the unconnected sentinel —
the claim (and the code's own stated intent for every other group, cf. the
zone test guarding the interior groups) says it must be left unchanged.
The second conjunct shows the zone test does protect the same net when a
later group follows it, so the last-group behavior contradicts the
function's own design. -/
theorem c4_last_group_zone_test_skipped :
    (c4Board.zones.any (fun z =>
        z.onCopper ∧ !z.ruleArea ∧ z.netname = "Z") = true)
    ∧ ((deleteSinglePadNets c4Opts (initState c4Board)).board.footprints.map
        (fun f => f.pads.map (·.netname)) = [[""]])
    ∧ ((deleteSinglePadNets c4Opts (initState c4BoardInterior)).board.footprints.map
        (fun f => f.pads.map (·.netname)) = [["Z", ""]]) := by
  decide

/-! ### C5 fixtures: two pre-existing footprints share the reference `R1`;
one incoming component `R1` carries a different value. -/

def c5Board : Board :=
  ⟨[⟨1, "R1", "old", "P1", "L:F", [], false, false, false, [], (0, 0)⟩,
    ⟨2, "R1", "old", "P2", "L:F", [], false, false, false, [], (0, 0)⟩],
   [⟨"", true⟩], [], []⟩
def c5Component : Component := ⟨"R1", "new", "P1", "L:F", [], []⟩
def c5Opts : Options := ⟨true, false, false, true, false, false⟩
def c5Deps : Deps := ⟨fun _ => none, fun _ => [], true, true, 0, 0, 0, 0, 100, 100⟩

/-- C5 counterexample: with two footprints matching `R1`, the ambiguity is
reported as an error but the error counter stays 0 (the claim says it is
counted), and BOTH footprints receive the metadata update — their values
are both rewritten to `new` (the claim says exactly one, the first, is
used). -/
theorem c5_counterexample :
    ((Severity.error, Msg.multipleFootprints "R1")
        ∈ (UpdateNetlist c5Opts c5Deps c5Board [c5Component]).report)
    ∧ ((UpdateNetlist c5Opts c5Deps c5Board [c5Component]).errorCount = 0)
    ∧ ((UpdateNetlist c5Opts c5Deps c5Board [c5Component]).board.footprints.map
        (fun f => (f.id, f.value)) = [(1, "new"), (2, "new")]) := by
  decide

/-! ### C7 fixtures: a locked footprint with no matching component, with
unused-component deletion enabled. -/

def c7Board : Board :=
  ⟨[⟨1, "U1", "V", "P", "L:F", [], false, false, true, [], (0, 0)⟩],
   [⟨"", true⟩], [], []⟩
def c7Opts : Options := ⟨true, true, false, true, false, false⟩
def c7Deps : Deps := ⟨fun _ => none, fun _ => [], true, true, 0, 0, 0, 0, 100, 100⟩

/-- C7 counterexample: the locked unused footprint `U1` is kept and the
cannot-remove warning is reported, but the warning counter surfaced to the
caller stays 0 — the claim says it increments by 1. -/
theorem c7_counterexample :
    ((UpdateNetlist c7Opts c7Deps c7Board []).board.footprints.map
        (·.reference) = ["U1"])
    ∧ ((Severity.warning, Msg.cannotRemoveLocked "U1")
        ∈ (UpdateNetlist c7Opts c7Deps c7Board []).report)
    ∧ ((UpdateNetlist c7Opts c7Deps c7Board []).warningCount = 0) := by
  decide

/-! ### C2 and C3 fixtures: one footprint `R1` whose only pad sits on net
`N`, and a netlist that binds that pad to `N`.  The committing run marks
`N` current, then the single-pad-net pruner disconnects the pad; the net
outlives its last pad. -/

def c2Board : Board :=
  ⟨[⟨1, "R1", "V", "P1", "L:F", [], false, false, false,
     [⟨"1", "", "", "N", true, false⟩], (0, 0)⟩],
   [⟨"", true⟩, ⟨"N", true⟩], [], []⟩
def c2Component : Component := ⟨"R1", "V", "P1", "L:F", [], [⟨"1", "N", "", ""⟩]⟩
def c2Opts : Options := ⟨true, false, false, true, false, false⟩
def c2Deps : Deps := ⟨fun _ => none, fun _ => [], true, true, 0, 0, 0, 0, 100, 100⟩

/-- C2 counterexample: after the committing pass, net `N` is still present
in the registry although it is not the sentinel and no pad on the board is
bound to it (its only pad was disconnected by single-pad-net pruning after
`N` had been marked current). -/
theorem c2_counterexample :
    ("N" ∈ (UpdateNetlist c2Opts c2Deps c2Board [c2Component]).board.nets.map
        (·.name))
    ∧ ((UpdateNetlist c2Opts c2Deps c2Board [c2Component]).board.footprints.all
        (fun f => f.pads.all (fun p => p.netname ≠ "N")) = true) := by
  decide

def c3Board : Board := c2Board
def c3Component : Component := ⟨"R1", "V", "P1", "L:F", [], [⟨"1", "N", "", ""⟩]⟩
def c3Opts : Options := ⟨true, false, false, true, false, false⟩
def c3Deps : Deps := ⟨fun _ => none, fun _ => [], true, true, 0, 0, 0, 0, 100, 100⟩

/-- C3 counterexample: running `UpdateNetlist` a second time with the same
netlist against the board produced by the first committing run reports an
Action-severity change ("Connect R1 pin 1 to N") — the single-pad-net
pruner silently disconnected the pad at the end of the first run, so the
second run reconnects it.  The claim says the second run reports zero
Action-severity changes. -/
theorem c3_counterexample :
    countActions (UpdateNetlist c3Opts c3Deps
      (UpdateNetlist c3Opts c3Deps c3Board [c3Component]).board
      [c3Component]).report = 1 := by
  decide

/-! ## C10: components with `exclude_from_board` -/

/-- C10: a component whose property map contains `exclude_from_board` is
skipped by the main component loop before any matching (the per-component
processing is the identity on the updater state: no metadata update, no
pad reconnection, no new footprint, not even the Processing message), and
in the unused-footprint sweep a footprint whose reference/path lookup
finds such a component remains eligible for deletion: with unused-component
deletion on, no board-only attribute and no lock, the footprint is
reported removed and staged for removal from the board. -/
theorem c10_exclude_from_board_skips_and_allows_deletion :
    (∀ (opts : Options) (deps : Deps) (boundary : Option Nat) (st : UpdState)
        (idx : Nat) (c : Component),
        hasProp c.props "exclude_from_board" = true →
        processComponent opts deps boundary st (idx, c) = st)
    ∧ (∀ (opts : Options) (netlist : List Component) (st : UpdState)
        (f : Footprint) (c : Component),
        opts.deleteUnusedComponents = true →
        opts.isDryRun = false →
        f.boardOnly = false →
        f.locked = false →
        (if opts.lookupByTimestamp then getComponentByPath netlist f.path
         else getComponentByReference netlist f.reference) = some c →
        hasProp c.props "exclude_from_board" = true →
        sweepOneFootprint opts netlist st f =
          { reportMsg st .action (.removeFootprint f.reference) with
            commitRemoves := st.commitRemoves ++ [f.id] }) := by
  constructor
  · intro opts deps boundary st idx c h
    simp [processComponent, h]
  · intro opts netlist st f c hDel hDry hBoardOnly hLock hLookup hProp
    simp [sweepOneFootprint, reportMsg, hDel, hDry, hBoardOnly, hLock, hLookup,
      hProp]

def c10Opts : Options := ⟨true, true, false, true, false, false⟩
def c10Deps : Deps := ⟨fun _ => none, fun _ => [], true, true, 0, 0, 0, 0, 100, 100⟩
def c10Component : Component :=
  ⟨"R1", "V", "P", "L:F", [("exclude_from_board", "")], []⟩
def c10Footprint : Footprint :=
  ⟨1, "R1", "V", "P", "L:F", [], false, false, false, [], (0, 0)⟩
def c10State : UpdState := initState ⟨[c10Footprint], [⟨"", true⟩], [], []⟩

theorem c10_witness :
    (processComponent c10Opts c10Deps (some 0) c10State (0, c10Component)
        = c10State)
    ∧ (sweepOneFootprint c10Opts [c10Component] c10State c10Footprint =
        { reportMsg c10State .action (.removeFootprint "R1") with
          commitRemoves := c10State.commitRemoves ++ [1] }) :=
  ⟨c10_exclude_from_board_skips_and_allows_deletion.1 c10Opts c10Deps (some 0)
      c10State 0 c10Component (by decide),
   c10_exclude_from_board_skips_and_allows_deletion.2 c10Opts [c10Component]
      c10State c10Footprint c10Component rfl rfl rfl rfl (by decide) (by decide)⟩

/-! ## C5 machinery: error-counter frame of the metadata/pad sync -/

theorem errEq_syncReferenceField (opts : Options) (fid : Nat) (c : Component)
    (st : UpdState) :
    (syncReferenceField opts fid c st).errorCount = st.errorCount := by
  simp only [syncReferenceField]
  repeat' split
  all_goals rfl

theorem errEq_syncValueField (opts : Options) (fid : Nat) (c : Component)
    (st : UpdState) :
    (syncValueField opts fid c st).errorCount = st.errorCount := by
  simp only [syncValueField]
  repeat' split
  all_goals rfl

theorem errEq_syncPathField (opts : Options) (fid : Nat) (c : Component)
    (st : UpdState) :
    (syncPathField opts fid c st).errorCount = st.errorCount := by
  simp only [syncPathField]
  repeat' split
  all_goals rfl

theorem errEq_syncPropsField (opts : Options) (fid : Nat) (c : Component)
    (st : UpdState) :
    (syncPropsField opts fid c st).errorCount = st.errorCount := by
  simp only [syncPropsField]
  repeat' split
  all_goals rfl

theorem errEq_syncBomAttrField (opts : Options) (fid : Nat) (c : Component)
    (st : UpdState) :
    (syncBomAttrField opts fid c st).errorCount = st.errorCount := by
  simp only [syncBomAttrField]
  repeat' split
  all_goals rfl

theorem errEq_updateFootprintParameters (opts : Options) (fid : Nat)
    (c : Component) (st : UpdState) :
    (updateFootprintParameters opts fid c st).errorCount = st.errorCount := by
  simp only [updateFootprintParameters]
  rw [errEq_syncBomAttrField, errEq_syncPropsField, errEq_syncPathField,
    errEq_syncValueField, errEq_syncReferenceField]

theorem errEq_syncPinMetaFields (opts : Options) (fid i : Nat) (pad : Pad)
    (pf pt : String) (st : UpdState) :
    (syncPinMetaFields opts fid i pad pf pt st).errorCount = st.errorCount := by
  simp only [syncPinMetaFields]
  repeat' split
  all_goals rfl

theorem errEq_disconnectPadBranch (opts : Options) (fid i : Nat)
    (fref : String) (pad : Pad) (st : UpdState) :
    (disconnectPadBranch opts fid i fref pad st).errorCount = st.errorCount := by
  simp only [disconnectPadBranch]
  repeat' split
  all_goals rfl

theorem errEq_connectPadBranch (opts : Options) (fid i : Nat) (fref : String)
    (pad : Pad) (netName : String) (netinfoFound : Bool) (st : UpdState) :
    (connectPadBranch opts fid i fref pad netName netinfoFound st).errorCount
      = st.errorCount := by
  simp only [connectPadBranch]
  repeat' split
  all_goals rfl

theorem errEq_syncPadNetPart (opts : Options) (fid i : Nat) (fref : String)
    (pad : Pad) (net : ComponentNet) (st : UpdState) :
    (syncPadNetPart opts fid i fref pad net st).errorCount = st.errorCount := by
  simp only [syncPadNetPart]
  repeat' split
  all_goals first
    | rfl
    | exact errEq_disconnectPadBranch _ _ _ _ _ _
    | exact errEq_connectPadBranch _ _ _ _ _ _ _ _

theorem errEq_syncOnePad (opts : Options) (fid : Nat) (c : Component)
    (st : UpdState) (i : Nat) :
    (syncOnePad opts fid c st i).errorCount = st.errorCount := by
  simp only [syncOnePad]
  repeat' split
  all_goals first
    | rfl
    | rw [errEq_syncPadNetPart, errEq_syncPinMetaFields]

theorem errEq_updateComponentPadConnections (opts : Options) (fid : Nat)
    (c : Component) (st : UpdState) :
    (updateComponentPadConnections opts fid c st).errorCount
      = st.errorCount := by
  simp only [updateComponentPadConnections]
  split
  · rfl
  · exact foldl_invariant _ (fun s => s.errorCount = st.errorCount) _ _ rfl
      (fun s i hs => (errEq_syncOnePad opts fid c s i).trans hs)

theorem errEq_applyComponentUpdates (opts : Options) (idx : Nat)
    (c : Component) (tmp : Option Nat) (st : UpdState) :
    (applyComponentUpdates opts idx c tmp st).errorCount = st.errorCount := by
  cases tmp with
  | none => rfl
  | some fid =>
      simp only [applyComponentUpdates]
      rw [errEq_updateComponentPadConnections, errEq_updateFootprintParameters]

/-! ## C5 machinery: positional footprint lookups -/

theorem get?_modifyFootprint (st : UpdState) (fid : Nat)
    (g : Footprint → Footprint) (k : Nat) :
    (modifyFootprint st fid g).board.footprints.get? k =
      (st.board.footprints.get? k).map
        (fun f => if f.id = fid then g f else f) := by
  simp only [modifyFootprint]
  exact List.get?_map _ _ _

theorem get?_modifyPad (st : UpdState) (fid i : Nat) (g : Pad → Pad)
    (k : Nat) :
    (modifyPad st fid i g).board.footprints.get? k =
      (st.board.footprints.get? k).map
        (fun f => if f.id = fid then
          { f with pads := f.pads.mapIdx (fun j p => if j = i then g p else p) }
        else f) :=
  get?_modifyFootprint st fid _ k

theorem find?_id_of_get? (l : List Footprint) :
    ∀ (i : Nat) (f : Footprint), (l.map Footprint.id).Nodup →
      l.get? i = some f → l.find? (fun x => x.id = f.id) = some f := by
  induction l with
  | nil => intro i f _ hG; simp at hG
  | cons a t ih =>
      intro i f hN hG
      simp only [List.map_cons, List.nodup_cons] at hN
      cases i with
      | zero =>
          have ha : a = f := by simpa using hG
          subst ha
          exact List.find?_cons_of_pos _ (by simp)
      | succ n =>
          have hG' : t.get? n = some f := hG
          have hmem : f.id ∈ t.map Footprint.id :=
            List.mem_map_of_mem _ (List.get?_mem hG')
          have hne : ¬ (a.id = f.id) := by
            intro he
            exact hN.1 (by rw [he]; exact hmem)
          rw [List.find?_cons_of_neg _ (by simpa using hne)]
          exact ih n f hN.2 hG'

theorem getFootprint_of_get? (st : UpdState) (i : Nat) (f : Footprint)
    (hN : ((st.board.footprints ++ st.commitAdds).map Footprint.id).Nodup)
    (hG : st.board.footprints.get? i = some f) :
    getFootprint st f.id = some f := by
  have hlt : i < st.board.footprints.length := by
    by_contra hle
    rw [List.get?_eq_none.mpr (Nat.le_of_not_lt hle)] at hG
    exact Option.noConfusion hG
  have hG' : (st.board.footprints ++ st.commitAdds).get? i = some f := by
    rw [List.get?_append hlt]; exact hG
  exact find?_id_of_get? _ i f hN hG'

theorem map_id_eq_of_idsFrame {a b : UpdState} (h : IdsFrame a b) :
    (b.board.footprints ++ b.commitAdds).map Footprint.id =
      (a.board.footprints ++ a.commitAdds).map Footprint.id := by
  simp only [List.map_append, h.1, h.2.1]

theorem nodup_of_idsFrame {a b : UpdState} (h : IdsFrame a b)
    (hN : ((a.board.footprints ++ a.commitAdds).map Footprint.id).Nodup) :
    ((b.board.footprints ++ b.commitAdds).map Footprint.id).Nodup := by
  rw [map_id_eq_of_idsFrame h]; exact hN

theorem length_eq_of_idsFrame {a b : UpdState} (h : IdsFrame a b) :
    b.board.footprints.length = a.board.footprints.length := by
  have h2 := congrArg List.length h.1
  simpa using h2

theorem id_ne_of_get?_nodup (l : List Footprint)
    (hN : (l.map Footprint.id).Nodup) (i k : Nat) (f g : Footprint)
    (hi : l.get? i = some f) (hk : l.get? k = some g) (hik : i ≠ k) :
    f.id ≠ g.id := by
  intro he
  apply hik
  have hi2 : (l.map Footprint.id).get? i = some f.id := by
    rw [List.get?_map, hi]; rfl
  have hk2 : (l.map Footprint.id).get? k = some g.id := by
    rw [List.get?_map, hk]; rfl
  have hlt : i < (l.map Footprint.id).length := by
    by_contra hle
    rw [List.get?_eq_none.mpr (Nat.le_of_not_lt hle)] at hi2
    exact Option.noConfusion hi2
  exact List.get?_inj hlt hN (by rw [hi2, hk2, he])

/-! ## C5 machinery: footprints with other ids are untouched -/

theorem otherFrame_trans {fid : Nat} {a b c : UpdState}
    (h1 : OtherIdFrame fid a b) (h2 : OtherIdFrame fid b c) :
    OtherIdFrame fid a c :=
  fun k f hk hne => h2 k f (h1 k f hk hne) hne

theorem otherFrame_syncReferenceField (opts : Options) (fid : Nat)
    (c : Component) (st : UpdState) :
    OtherIdFrame fid st (syncReferenceField opts fid c st) := by
  simp only [syncReferenceField]
  repeat' split
  all_goals intro k f hk hne
  all_goals try exact hk
  all_goals simp only [get?_modifyFootprint]
  all_goals try dsimp only [reportMsg]
  all_goals rw [hk]
  all_goals simp [hne]

theorem otherFrame_syncValueField (opts : Options) (fid : Nat)
    (c : Component) (st : UpdState) :
    OtherIdFrame fid st (syncValueField opts fid c st) := by
  simp only [syncValueField]
  repeat' split
  all_goals intro k f hk hne
  all_goals try exact hk
  all_goals simp only [get?_modifyFootprint]
  all_goals try dsimp only [reportMsg]
  all_goals rw [hk]
  all_goals simp [hne]

theorem otherFrame_syncPathField (opts : Options) (fid : Nat)
    (c : Component) (st : UpdState) :
    OtherIdFrame fid st (syncPathField opts fid c st) := by
  simp only [syncPathField]
  repeat' split
  all_goals intro k f hk hne
  all_goals try exact hk
  all_goals simp only [get?_modifyFootprint]
  all_goals try dsimp only [reportMsg]
  all_goals rw [hk]
  all_goals simp [hne]

theorem otherFrame_syncPropsField (opts : Options) (fid : Nat)
    (c : Component) (st : UpdState) :
    OtherIdFrame fid st (syncPropsField opts fid c st) := by
  simp only [syncPropsField]
  repeat' split
  all_goals intro k f hk hne
  all_goals try exact hk
  all_goals simp only [get?_modifyFootprint]
  all_goals try dsimp only [reportMsg]
  all_goals rw [hk]
  all_goals simp [hne]

theorem otherFrame_syncBomAttrField (opts : Options) (fid : Nat)
    (c : Component) (st : UpdState) :
    OtherIdFrame fid st (syncBomAttrField opts fid c st) := by
  simp only [syncBomAttrField]
  repeat' split
  all_goals intro k f hk hne
  all_goals try exact hk
  all_goals simp only [get?_modifyFootprint]
  all_goals try dsimp only [reportMsg]
  all_goals rw [hk]
  all_goals simp [hne]

theorem otherFrame_updateFootprintParameters (opts : Options) (fid : Nat)
    (c : Component) (st : UpdState) :
    OtherIdFrame fid st (updateFootprintParameters opts fid c st) := by
  simp only [updateFootprintParameters]
  exact otherFrame_trans (otherFrame_syncReferenceField opts fid c st)
    (otherFrame_trans (otherFrame_syncValueField opts fid c _)
      (otherFrame_trans (otherFrame_syncPathField opts fid c _)
        (otherFrame_trans (otherFrame_syncPropsField opts fid c _)
          (otherFrame_syncBomAttrField opts fid c _))))

theorem otherFrame_syncPinMetaFields (opts : Options) (fid i : Nat)
    (pad : Pad) (pf pt : String) (st : UpdState) :
    OtherIdFrame fid st (syncPinMetaFields opts fid i pad pf pt st) := by
  simp only [syncPinMetaFields]
  repeat' split
  all_goals intro k f hk hne
  all_goals try exact hk
  all_goals simp only [get?_modifyPad]
  all_goals try dsimp only [reportMsg, cacheNetname, cachePinFunction]
  all_goals rw [hk]
  all_goals simp [hne]

theorem otherFrame_disconnectPadBranch (opts : Options) (fid i : Nat)
    (fref : String) (pad : Pad) (st : UpdState) :
    OtherIdFrame fid st (disconnectPadBranch opts fid i fref pad st) := by
  simp only [disconnectPadBranch]
  repeat' split
  all_goals intro k f hk hne
  all_goals try exact hk
  all_goals simp only [get?_modifyPad]
  all_goals try dsimp only [reportMsg, cacheNetname, cachePinFunction]
  all_goals rw [hk]
  all_goals simp [hne]

theorem otherFrame_connectPadBranch (opts : Options) (fid i : Nat)
    (fref : String) (pad : Pad) (netName : String) (netinfoFound : Bool)
    (st : UpdState) :
    OtherIdFrame fid st
      (connectPadBranch opts fid i fref pad netName netinfoFound st) := by
  simp only [connectPadBranch]
  repeat' split
  all_goals intro k f hk hne
  all_goals try exact hk
  all_goals simp only [get?_modifyPad]
  all_goals try dsimp only [reportMsg, cacheNetname, cachePinFunction]
  all_goals rw [hk]
  all_goals simp [hne]

theorem otherFrame_syncPadNetPart (opts : Options) (fid i : Nat)
    (fref : String) (pad : Pad) (net : ComponentNet) (st : UpdState) :
    OtherIdFrame fid st (syncPadNetPart opts fid i fref pad net st) := by
  simp only [syncPadNetPart]
  split
  · exact otherFrame_disconnectPadBranch _ _ _ _ _ _
  · split
    · split
      · exact fun k f hk hne =>
          otherFrame_connectPadBranch _ _ _ _ _ _ _ _ k f hk hne
      · exact fun k f hk hne =>
          otherFrame_connectPadBranch _ _ _ _ _ _ _ _ k f hk hne
    · split
      · exact fun k f hk hne => hk
      · exact fun k f hk hne => hk

theorem otherFrame_syncOnePad (opts : Options) (fid : Nat) (c : Component)
    (st : UpdState) (i : Nat) :
    OtherIdFrame fid st (syncOnePad opts fid c st i) := by
  simp only [syncOnePad]
  repeat' split
  all_goals first
    | exact fun k f hk hne => hk
    | exact otherFrame_trans (otherFrame_syncPinMetaFields _ _ _ _ _ _ _)
        (otherFrame_syncPadNetPart _ _ _ _ _ _ _)

theorem otherFrame_updateComponentPadConnections (opts : Options) (fid : Nat)
    (c : Component) (st : UpdState) :
    OtherIdFrame fid st (updateComponentPadConnections opts fid c st) := by
  simp only [updateComponentPadConnections]
  split
  · exact fun k f hk hne => hk
  · exact foldl_invariant _ (fun s => OtherIdFrame fid st s) _ _
      (fun k f hk hne => hk)
      (fun s j hs => otherFrame_trans hs (otherFrame_syncOnePad opts fid c s j))

theorem otherFrame_applyComponentUpdates (opts : Options) (idx : Nat)
    (c : Component) (fid : Nat) (st : UpdState) :
    OtherIdFrame fid st (applyComponentUpdates opts idx c (some fid) st) := by
  simp only [applyComponentUpdates]
  refine otherFrame_trans
    (b := { st with footprintMap := assocSet idx fid st.footprintMap })
    (fun k f hk hne => hk) ?_
  exact otherFrame_trans (otherFrame_updateFootprintParameters _ _ _ _)
    (otherFrame_updateComponentPadConnections _ _ _ _)

/-! ## C5 machinery: pad syncs do not touch footprint metadata -/

theorem metaFrame_trans {a b c : UpdState} (h1 : MetaFrame a b)
    (h2 : MetaFrame b c) : MetaFrame a c :=
  fun k => (h2 k).trans (h1 k)

theorem metaFrame_modifyPad (st : UpdState) (fid i : Nat) (g : Pad → Pad) :
    MetaFrame st (modifyPad st fid i g) := by
  intro k
  rw [get?_modifyPad]
  cases h : st.board.footprints.get? k with
  | none => rfl
  | some f =>
      simp only [Option.map_some']
      split
      · rfl
      · rfl

theorem metaFrame_modifyPad2 (a st : UpdState) (fid i : Nat) (g : Pad → Pad)
    (h : MetaFrame a st) : MetaFrame a (modifyPad st fid i g) :=
  metaFrame_trans h (metaFrame_modifyPad st fid i g)

theorem metaFrame_syncPinMetaFields (opts : Options) (fid i : Nat) (pad : Pad)
    (pf pt : String) (st : UpdState) :
    MetaFrame st (syncPinMetaFields opts fid i pad pf pt st) := by
  simp only [syncPinMetaFields]
  repeat' split
  all_goals first
    | exact fun k => rfl
    | exact metaFrame_modifyPad _ _ _ _
    | exact metaFrame_modifyPad2 _ _ _ _ _ (metaFrame_modifyPad2 _ _ _ _ _ (fun k => rfl))

theorem metaFrame_disconnectPadBranch (opts : Options) (fid i : Nat)
    (fref : String) (pad : Pad) (st : UpdState) :
    MetaFrame st (disconnectPadBranch opts fid i fref pad st) := by
  simp only [disconnectPadBranch]
  repeat' split
  all_goals first
    | exact fun k => rfl
    | exact metaFrame_modifyPad2 _ _ _ _ _ (metaFrame_modifyPad2 _ _ _ _ _ (fun k => rfl))

theorem metaFrame_connectPadBranch (opts : Options) (fid i : Nat)
    (fref : String) (pad : Pad) (netName : String) (netinfoFound : Bool)
    (st : UpdState) :
    MetaFrame st
      (connectPadBranch opts fid i fref pad netName netinfoFound st) := by
  simp only [connectPadBranch]
  repeat' split
  all_goals first
    | exact fun k => rfl
    | exact metaFrame_modifyPad2 _ _ _ _ _ (fun k => rfl)

theorem metaFrame_syncPadNetPart (opts : Options) (fid i : Nat)
    (fref : String) (pad : Pad) (net : ComponentNet) (st : UpdState) :
    MetaFrame st (syncPadNetPart opts fid i fref pad net st) := by
  simp only [syncPadNetPart]
  split
  · exact metaFrame_disconnectPadBranch _ _ _ _ _ _
  · split
    · split
      · exact fun k => metaFrame_connectPadBranch _ _ _ _ _ _ _ _ k
      · exact fun k => metaFrame_connectPadBranch _ _ _ _ _ _ _ _ k
    · split
      · exact fun k => rfl
      · exact fun k => rfl

theorem metaFrame_syncOnePad (opts : Options) (fid : Nat) (c : Component)
    (st : UpdState) (i : Nat) :
    MetaFrame st (syncOnePad opts fid c st i) := by
  simp only [syncOnePad]
  repeat' split
  all_goals first
    | exact fun k => rfl
    | exact metaFrame_trans (metaFrame_syncPinMetaFields _ _ _ _ _ _ _)
        (metaFrame_syncPadNetPart _ _ _ _ _ _ _)

theorem metaFrame_updateComponentPadConnections (opts : Options) (fid : Nat)
    (c : Component) (st : UpdState) :
    MetaFrame st (updateComponentPadConnections opts fid c st) := by
  simp only [updateComponentPadConnections]
  split
  · exact fun k => rfl
  · exact foldl_invariant _ (fun s => MetaFrame st s) _ _ (fun k => rfl)
      (fun s j hs => metaFrame_trans hs (metaFrame_syncOnePad opts fid c s j))

/-! ## C5 machinery: what `updateFootprintParameters` leaves at the
target position -/

theorem withReference_self (f : Footprint) (v : String)
    (h : f.reference = v) : ({ f with reference := v } : Footprint) = f := by
  rw [← h]

theorem withValue_self (f : Footprint) (v : String) (h : f.value = v) :
    ({ f with value := v } : Footprint) = f := by
  rw [← h]

theorem withPath_self (f : Footprint) (v : String) (h : f.path = v) :
    ({ f with path := v } : Footprint) = f := by
  rw [← h]

theorem withProps_self (f : Footprint) (v : List (String × String))
    (h : f.props = v) : ({ f with props := v } : Footprint) = f := by
  rw [← h]

theorem withBom_self (f : Footprint) (v : Bool) (h : f.excludeFromBom = v) :
    ({ f with excludeFromBom := v } : Footprint) = f := by
  rw [← h]

theorem syncReferenceField_post (opts : Options) (fid : Nat) (c : Component)
    (st : UpdState) (i : Nat) (f : Footprint)
    (hDry : opts.isDryRun = false) (hfid : f.id = fid)
    (hN : ((st.board.footprints ++ st.commitAdds).map Footprint.id).Nodup)
    (hG : st.board.footprints.get? i = some f) :
    (syncReferenceField opts fid c st).board.footprints.get? i =
      some { f with reference := c.reference } := by
  have hF : getFootprint st fid = some f := by
    rw [← hfid]; exact getFootprint_of_get? st i f hN hG
  simp only [syncReferenceField, hF]
  split
  · rw [if_pos (by rw [hDry]; rfl)]
    rw [get?_modifyFootprint]
    dsimp only [reportMsg]
    rw [hG]
    simp [hfid]
  · rename_i hv
    rw [hG, withReference_self f c.reference (not_ne_iff.mp hv)]

theorem syncValueField_post (opts : Options) (fid : Nat) (c : Component)
    (st : UpdState) (i : Nat) (f : Footprint)
    (hDry : opts.isDryRun = false) (hfid : f.id = fid)
    (hN : ((st.board.footprints ++ st.commitAdds).map Footprint.id).Nodup)
    (hG : st.board.footprints.get? i = some f) :
    (syncValueField opts fid c st).board.footprints.get? i =
      some { f with value := c.value } := by
  have hF : getFootprint st fid = some f := by
    rw [← hfid]; exact getFootprint_of_get? st i f hN hG
  simp only [syncValueField, hF]
  split
  · rw [if_pos (by rw [hDry]; rfl)]
    rw [get?_modifyFootprint]
    dsimp only [reportMsg]
    rw [hG]
    simp [hfid]
  · rename_i hv
    rw [hG, withValue_self f c.value (not_ne_iff.mp hv)]

theorem syncPathField_post (opts : Options) (fid : Nat) (c : Component)
    (st : UpdState) (i : Nat) (f : Footprint)
    (hDry : opts.isDryRun = false) (hfid : f.id = fid)
    (hN : ((st.board.footprints ++ st.commitAdds).map Footprint.id).Nodup)
    (hG : st.board.footprints.get? i = some f) :
    (syncPathField opts fid c st).board.footprints.get? i =
      some { f with path := c.path } := by
  have hF : getFootprint st fid = some f := by
    rw [← hfid]; exact getFootprint_of_get? st i f hN hG
  simp only [syncPathField, hF]
  split
  · rw [if_pos (by rw [hDry]; rfl)]
    rw [get?_modifyFootprint]
    dsimp only [reportMsg]
    rw [hG]
    simp [hfid]
  · rename_i hv
    rw [hG, withPath_self f c.path (not_ne_iff.mp hv)]

theorem syncPropsField_post (opts : Options) (fid : Nat) (c : Component)
    (st : UpdState) (i : Nat) (f : Footprint)
    (hDry : opts.isDryRun = false) (hfid : f.id = fid)
    (hN : ((st.board.footprints ++ st.commitAdds).map Footprint.id).Nodup)
    (hG : st.board.footprints.get? i = some f) :
    (syncPropsField opts fid c st).board.footprints.get? i =
      some { f with props := c.props } := by
  have hF : getFootprint st fid = some f := by
    rw [← hfid]; exact getFootprint_of_get? st i f hN hG
  simp only [syncPropsField, hF]
  split
  · rw [if_pos (by rw [hDry]; rfl)]
    rw [get?_modifyFootprint]
    dsimp only [reportMsg]
    rw [hG]
    simp [hfid]
  · rename_i hv
    rw [hG, withProps_self f c.props (not_ne_iff.mp hv)]

theorem syncBomAttrField_post (opts : Options) (fid : Nat) (c : Component)
    (st : UpdState) (i : Nat) (f : Footprint)
    (hDry : opts.isDryRun = false) (hfid : f.id = fid)
    (hN : ((st.board.footprints ++ st.commitAdds).map Footprint.id).Nodup)
    (hG : st.board.footprints.get? i = some f) :
    (syncBomAttrField opts fid c st).board.footprints.get? i =
      some { f with excludeFromBom := hasProp c.props "exclude_from_bom" } := by
  have hF : getFootprint st fid = some f := by
    rw [← hfid]; exact getFootprint_of_get? st i f hN hG
  simp only [syncBomAttrField, hF]
  split
  · rw [if_pos (by rw [hDry]; rfl)]
    split
    all_goals rw [get?_modifyFootprint]
    all_goals dsimp only [reportMsg]
    all_goals rw [hG]
    all_goals simp [hfid]
  · rename_i hv
    rw [hG, withBom_self f _ (not_ne_iff.mp hv).symm]

theorem updateFootprintParameters_post (opts : Options) (fid : Nat)
    (c : Component) (st : UpdState) (i : Nat) (f : Footprint)
    (hDry : opts.isDryRun = false) (hfid : f.id = fid)
    (hN : ((st.board.footprints ++ st.commitAdds).map Footprint.id).Nodup)
    (hG : st.board.footprints.get? i = some f) :
    (updateFootprintParameters opts fid c st).board.footprints.get? i =
      some (metaApply c f) := by
  simp only [updateFootprintParameters]
  have h1 := syncReferenceField_post opts fid c st i f hDry hfid hN hG
  have hN1 := nodup_of_idsFrame (idsFrame_syncReferenceField opts fid c st) hN
  have h2 := syncValueField_post opts fid c _ i
    { f with reference := c.reference } hDry hfid hN1 h1
  have hN2 := nodup_of_idsFrame (idsFrame_syncValueField opts fid c _) hN1
  have h3 := syncPathField_post opts fid c _ i
    { { f with reference := c.reference } with value := c.value }
    hDry hfid hN2 h2
  have hN3 := nodup_of_idsFrame (idsFrame_syncPathField opts fid c _) hN2
  have h4 := syncPropsField_post opts fid c _ i
    { { { f with reference := c.reference } with value := c.value } with
      path := c.path } hDry hfid hN3 h3
  have hN4 := nodup_of_idsFrame (idsFrame_syncPropsField opts fid c _) hN3
  have h5 := syncBomAttrField_post opts fid c _ i
    { { { { f with reference := c.reference } with value := c.value } with
      path := c.path } with props := c.props } hDry hfid hN4 h4
  exact h5

theorem applyComponentUpdates_meta (opts : Options) (idx : Nat)
    (c : Component) (fid : Nat) (st : UpdState) (i : Nat) (f : Footprint)
    (hDry : opts.isDryRun = false) (hfid : f.id = fid)
    (hN : ((st.board.footprints ++ st.commitAdds).map Footprint.id).Nodup)
    (hG : st.board.footprints.get? i = some f) :
    ∃ f',
      (applyComponentUpdates opts idx c (some fid) st).board.footprints.get? i
          = some f' ∧
        f'.id = f.id ∧ MetaSynced c f' := by
  simp only [applyComponentUpdates]
  have hG1 : ({ st with footprintMap := assocSet idx fid st.footprintMap }
      : UpdState).board.footprints.get? i = some f := hG
  have hN1 : ((({ st with footprintMap := assocSet idx fid st.footprintMap }
      : UpdState).board.footprints ++
      ({ st with footprintMap := assocSet idx fid st.footprintMap }
      : UpdState).commitAdds).map Footprint.id).Nodup := hN
  have h2 := updateFootprintParameters_post opts fid c
    { st with footprintMap := assocSet idx fid st.footprintMap } i f hDry
    hfid hN1 hG1
  have hmf := metaFrame_updateComponentPadConnections opts fid c
    (updateFootprintParameters opts fid c
      { st with footprintMap := assocSet idx fid st.footprintMap }) i
  rw [h2] at hmf
  set stU := updateComponentPadConnections opts fid c
    (updateFootprintParameters opts fid c
      { st with footprintMap := assocSet idx fid st.footprintMap }) with hstU
  cases hres : stU.board.footprints.get? i with
  | none =>
      rw [hres] at hmf
      simp at hmf
  | some g =>
      rw [hres] at hmf
      simp only [Option.map_some'] at hmf
      have hg := Option.some.inj hmf
      simp only [metaOf, metaApply, Prod.mk.injEq] at hg
      exact ⟨g, rfl, hg.1, hg.2⟩

/-! ## C5: the match scan updates every matching footprint, and counts
matches without touching the error counter -/

/-- Invariant of the match scan of one component: already-processed
matching positions are metadata-synced, every other position is untouched,
the error counter is unchanged and the running count equals the number of
matches among the processed indices. -/
def ScanInv (opts : Options) (c : Component) (st0 : UpdState)
    (l1 : List Nat) (acc : Nat × UpdState) : Prop :=
  IdsFrame st0 acc.snd ∧
  acc.snd.errorCount = st0.errorCount ∧
  (∀ k f, st0.board.footprints.get? k = some f →
    (k ∉ l1 ∨ matchesC opts c f = false) →
    acc.snd.board.footprints.get? k = some f) ∧
  (∀ k f, st0.board.footprints.get? k = some f → k ∈ l1 →
    matchesC opts c f = true →
    ∃ f', acc.snd.board.footprints.get? k = some f' ∧ f'.id = f.id ∧
      MetaSynced c f') ∧
  acc.fst = scanMatchCount opts c st0.board.footprints l1

set_option maxHeartbeats 2000000 in
theorem scanStep_inv (opts : Options) (deps : Deps) (idx : Nat)
    (c : Component) (st0 : UpdState)
    (hDry : opts.isDryRun = false)
    (hN : ((st0.board.footprints ++ st0.commitAdds).map Footprint.id).Nodup)
    (hNoRepl : ∀ f, f ∈ st0.board.footprints → matchesC opts c f = true →
      opts.replaceFootprints = true → c.fpid = f.fpid)
    (l1 : List Nat) (i : Nat) (hi : i ∉ l1) (acc : Nat × UpdState)
    (hInv : ScanInv opts c st0 l1 acc) :
    ScanInv opts c st0 (l1 ++ [i]) (matchScanStep opts deps idx c acc i) := by
  obtain ⟨hIds, hErr, hUn, hSync, hCnt⟩ := hInv
  have hNb0 : (st0.board.footprints.map Footprint.id).Nodup := by
    rw [List.map_append] at hN
    exact (List.nodup_append.mp hN).1
  cases hGi : st0.board.footprints.get? i with
  | none =>
      have hGi2 : acc.snd.board.footprints.get? i = none := by
        rw [List.get?_eq_none] at hGi ⊢
        rw [length_eq_of_idsFrame hIds]
        exact hGi
      simp only [matchScanStep, hGi2]
      refine ⟨hIds, hErr, ?_, ?_, ?_⟩
      · intro k g hk hor
        refine hUn k g hk (hor.imp ?_ id)
        intro hnotin hmem
        exact hnotin (List.mem_append_left _ hmem)
      · intro k g hk hkin hm
        rcases List.mem_append.mp hkin with hk1 | hk1
        · exact hSync k g hk hk1 hm
        · rw [List.mem_singleton] at hk1
          subst hk1
          rw [hGi] at hk
          exact Option.noConfusion hk
      · rw [hCnt]
        have hGi3 : st0.board.footprints[i]? = none := by
          rw [← List.get?_eq_getElem?]
          exact hGi
        simp [scanMatchCount, List.filter_append, hGi3]
  | some f =>
      have hGi2 : acc.snd.board.footprints.get? i = some f :=
        hUn i f hGi (Or.inl hi)
      have hNa := nodup_of_idsFrame hIds hN
      have hNbA : (acc.snd.board.footprints.map Footprint.id).Nodup := by
        rw [hIds.1]
        exact hNb0
      simp only [matchScanStep, hGi2]
      cases hM : matchesC opts c f with
      | false =>
          rw [if_neg (by simp)]
          refine ⟨hIds, hErr, ?_, ?_, ?_⟩
          · intro k g hk hor
            refine hUn k g hk (hor.imp ?_ id)
            intro hnotin hmem
            exact hnotin (List.mem_append_left _ hmem)
          · intro k g hk hkin hm
            rcases List.mem_append.mp hkin with hk1 | hk1
            · exact hSync k g hk hk1 hm
            · rw [List.mem_singleton] at hk1
              subst hk1
              rw [hGi] at hk
              injection hk with hk2
              subst hk2
              rw [hM] at hm
              exact Bool.noConfusion hm
          · rw [hCnt]
            have hGi3 : st0.board.footprints[i]? = some f := by
              rw [← List.get?_eq_getElem?]
              exact hGi
            simp [scanMatchCount, List.filter_append, hGi3, hM]
      | true =>
          rw [if_pos rfl]
          have hfmem : f ∈ st0.board.footprints := List.get?_mem hGi
          have hnr := hNoRepl f hfmem hM
          rw [if_neg (fun hand => hand.2 (hnr hand.1))]
          dsimp only
          have hMeta := applyComponentUpdates_meta opts idx c f.id acc.snd i f
            hDry rfl hNa hGi2
          have hOther := otherFrame_applyComponentUpdates opts idx c f.id
            acc.snd
          have hIds2 := idsFrame_trans hIds
            (idsFrame_applyComponentUpdates opts idx c (some f.id) acc.snd)
          refine ⟨hIds2, ?_, ?_, ?_, ?_⟩
          · dsimp only
            rw [errEq_applyComponentUpdates]
            exact hErr
          · dsimp only
            intro k g hk hor
            have hki : k ≠ i := by
              intro he
              rcases hor with h1 | h1
              · refine h1 ?_
                rw [he]
                exact List.mem_append_right _ (List.mem_singleton_self i)
              · rw [he, hGi] at hk
                injection hk with hk2
                rw [← hk2, hM] at h1
                exact Bool.noConfusion h1
            have hprev : acc.snd.board.footprints.get? k = some g := by
              refine hUn k g hk ?_
              rcases hor with h1 | h1
              · exact Or.inl (fun hm => h1 (List.mem_append_left _ hm))
              · exact Or.inr h1
            have hgne : g.id ≠ f.id :=
              id_ne_of_get?_nodup acc.snd.board.footprints hNbA k i g f
                hprev hGi2 hki
            exact hOther k g hprev hgne
          · dsimp only
            intro k g hk hkin hm
            rcases List.mem_append.mp hkin with hk1 | hk1
            · obtain ⟨f', hf', hfid', hms'⟩ := hSync k g hk hk1 hm
              have hki : k ≠ i := fun he => hi (he ▸ hk1)
              have hgne : f'.id ≠ f.id :=
                id_ne_of_get?_nodup acc.snd.board.footprints hNbA k i f' f
                  hf' hGi2 hki
              exact ⟨f', hOther k f' hf' hgne, hfid', hms'⟩
            · rw [List.mem_singleton] at hk1
              subst hk1
              rw [hGi] at hk
              injection hk with hk2
              subst hk2
              exact hMeta
          · dsimp only
            rw [hCnt]
            have hGi3 : st0.board.footprints[i]? = some f := by
              rw [← List.get?_eq_getElem?]
              exact hGi
            simp [scanMatchCount, List.filter_append, hGi3, hM]

theorem scanFold_inv (opts : Options) (deps : Deps) (idx : Nat)
    (c : Component) (st0 : UpdState)
    (hDry : opts.isDryRun = false)
    (hN : ((st0.board.footprints ++ st0.commitAdds).map Footprint.id).Nodup)
    (hNoRepl : ∀ f, f ∈ st0.board.footprints → matchesC opts c f = true →
      opts.replaceFootprints = true → c.fpid = f.fpid) :
    ∀ (l2 l1 : List Nat) (acc : Nat × UpdState), l2.Nodup →
      (∀ j, j ∈ l2 → j ∉ l1) → ScanInv opts c st0 l1 acc →
      ScanInv opts c st0 (l1 ++ l2)
        (l2.foldl (matchScanStep opts deps idx c) acc) := by
  intro l2
  induction l2 with
  | nil =>
      intro l1 acc _ _ h
      simpa using h
  | cons a t ih =>
      intro l1 acc hnd hdis hinv
      have hstep := scanStep_inv opts deps idx c st0 hDry hN hNoRepl l1 a
        (hdis a (List.mem_cons_self a t)) acc hinv
      have hdis2 : ∀ j, j ∈ t → j ∉ l1 ++ [a] := by
        intro j hj hmem
        rcases List.mem_append.mp hmem with h1 | h1
        · exact hdis j (List.mem_cons_of_mem a hj) h1
        · rw [List.mem_singleton] at h1
          subst h1
          exact (List.nodup_cons.mp hnd).1 hj
      have h2 := ih (l1 ++ [a]) _ (List.nodup_cons.mp hnd).2 hdis2 hstep
      have heq : (l1 ++ [a]) ++ t = l1 ++ a :: t := by simp
      rw [heq] at h2
      exact h2

set_option maxHeartbeats 2000000 in
/-- **C5** (corrected): when at least two scanned footprints match a
non-excluded component and no footprint replacement is required, the loop
body reports the multiple-footprints message as an Error but does NOT
increment the error counter, and every matching footprint — not only the
first — receives the metadata update (reference, value, path, properties
and exclude-from-BOM are synced to the component on each of them). -/
theorem c5_ambiguous_match_updates_all_and_uncounted
    (opts : Options) (deps : Deps) (st : UpdState) (b idx : Nat)
    (c : Component)
    (hDry : opts.isDryRun = false)
    (hExcl : hasProp c.props "exclude_from_board" = false)
    (hN : ((st.board.footprints ++ st.commitAdds).map Footprint.id).Nodup)
    (hNoRepl : ∀ f, f ∈ st.board.footprints → matchesC opts c f = true →
      opts.replaceFootprints = true → c.fpid = f.fpid)
    (hTwo : 2 ≤ scanMatchCount opts c st.board.footprints
      (List.range (b + 1))) :
    (Severity.error, Msg.multipleFootprints c.reference) ∈
      (processComponent opts deps (some b) st (idx, c)).report ∧
    (processComponent opts deps (some b) st (idx, c)).errorCount =
      st.errorCount ∧
    ∀ k f, st.board.footprints.get? k = some f → k < b + 1 →
      matchesC opts c f = true →
      ∃ f', (processComponent opts deps (some b) st (idx, c)).board.footprints.get? k = some f' ∧
        f'.id = f.id ∧ MetaSynced c f' := by
  have hInit : ScanInv opts c
      (reportMsg st .info (.processing c.reference c.fpid)) []
      (0, reportMsg st .info (.processing c.reference c.fpid)) :=
    ⟨idsFrame_refl _, rfl, fun k g hk _ => hk,
     fun k g _ hk _ => absurd hk (List.not_mem_nil k),
     by simp [scanMatchCount]⟩
  have hfold := scanFold_inv opts deps idx c
    (reportMsg st .info (.processing c.reference c.fpid)) hDry hN hNoRepl
    (List.range (b + 1)) []
    (0, reportMsg st .info (.processing c.reference c.fpid))
    (List.nodup_range _) (fun j _ h => List.not_mem_nil j h) hInit
  rw [List.nil_append] at hfold
  obtain ⟨hIds, hErr, hUn, hSync, hCnt⟩ := hfold
  simp only [processComponent]
  rw [if_neg (by simp [hExcl])]
  try dsimp only
  set ms := (List.range (b + 1)).foldl (matchScanStep opts deps idx c)
    (0, reportMsg st .info (.processing c.reference c.fpid)) with hms
  have hge : 2 ≤ ms.fst := by rw [hCnt]; exact hTwo
  rw [if_neg (by omega), if_pos (by omega)]
  refine ⟨?_, ?_, ?_⟩
  · simp
  · rw [errorCount_reportMsg]
    exact hErr
  · intro k f hk hkb hm
    have hk1 : (reportMsg st .info
        (.processing c.reference c.fpid)).board.footprints.get? k = some f := hk
    obtain ⟨f', hf', hfid', hms'⟩ := hSync k f hk1 (List.mem_range.mpr hkb) hm
    exact ⟨f', hf', hfid', hms'⟩

theorem c5_amended_witness :
    ((Severity.error, Msg.multipleFootprints "R1") ∈
      (processComponent c5Opts c5Deps (some 1) (initState c5Board)
        (0, c5Component)).report) ∧
    ((processComponent c5Opts c5Deps (some 1) (initState c5Board)
        (0, c5Component)).errorCount = (initState c5Board).errorCount) ∧
    (∃ f', (processComponent c5Opts c5Deps (some 1) (initState c5Board)
        (0, c5Component)).board.footprints.get? 0 = some f' ∧
      f'.id = 1 ∧ MetaSynced c5Component f') ∧
    (∃ f', (processComponent c5Opts c5Deps (some 1) (initState c5Board)
        (0, c5Component)).board.footprints.get? 1 = some f' ∧
      f'.id = 2 ∧ MetaSynced c5Component f') := by
  have h := c5_ambiguous_match_updates_all_and_uncounted c5Opts c5Deps
    (initState c5Board) 1 0 c5Component rfl rfl (by decide)
    (by intro f hf hm hr; fin_cases hf <;> rfl) (by decide)
  refine ⟨h.1, h.2.1, ?_, ?_⟩
  · exact h.2.2 0
      ⟨1, "R1", "old", "P1", "L:F", [], false, false, false, [], (0, 0)⟩
      rfl (by omega) (by decide)
  · exact h.2.2 1
      ⟨2, "R1", "old", "P2", "L:F", [], false, false, false, [], (0, 0)⟩
      rfl (by omega) (by decide)

/-! ## C6: via and zone dead-net repair

The claim says the three-step repair order — (a) cached connected pads,
(b) the old→new rename map, (c) warn and leave unchanged — applies to
vias as well as to zones.  The source's via loop (lines 529–574) never
consults the connected-pad snapshot: it goes straight to the rename map.
`updateOneViaPerClaim` is the via step as the claim describes it,
modelled from the spec's words (step (a) first, over a connected-pad
snapshot `cached`), for comparison with the source's `updateOneVia`. -/

def updateOneViaPerClaim (opts : Options) (nlNames : List String)
    (cached : List PadRef) (st : UpdState) (vi : Nat) : UpdState :=
  match st.board.tracks.get? vi with
  | none => st
  | some via =>
    if !via.isVia then st
    else if nlNames.contains via.netname then st
    else
      let fromPad :=
        match cached.find? (fun r => getNetname opts st r ≠ via.netname) with
        | some r => getNetname opts st r
        | none => ""
      let updatedNetname :=
        if fromPad = "" then
          match assocGet via.netname st.oldToNewNets with
          | some n => n
          | none => ""
        else fromPad
      if updatedNetname ≠ "" then
        let st := reportMsg st .action (.reconnectVia via.netname updatedNetname)
        if !opts.isDryRun then
          if (findNet st.board updatedNetname).isSome
              ∨ st.addedNets.contains updatedNetname then
            setTrackNetname st vi updatedNetname
          else st
        else st
      else
        let st := reportMsg st .warning (.viaUnknownNet via.netname)
        { st with warningCount := st.warningCount + 1 }

def c6Board : Board :=
  ⟨[⟨1, "R1", "V", "P", "L:F", [], false, false, false,
     [⟨"1", "", "", "NEW", true, false⟩], (0, 0)⟩],
   [⟨"", true⟩, ⟨"NEW", true⟩], [], [⟨true, "OLD"⟩]⟩
def c6Opts : Options := ⟨true, false, false, true, false, false⟩
def c6ZBoard : Board :=
  ⟨[⟨1, "R1", "V", "P", "L:F", [], false, false, false,
     [⟨"1", "", "", "NEW", true, false⟩], (0, 0)⟩],
   [⟨"", true⟩, ⟨"NEW", true⟩], [⟨"OLD", true, false⟩], []⟩
def c6ZState : UpdState :=
  { initState c6ZBoard with zoneConnectionsCache := [(0, [(1, 0)])] }

/-- C6 counterexample: a via on stale net `OLD`, with a historically
connected pad now on net `NEW` available in a snapshot and an empty rename
map.  The claim's three-step policy (modelled by `updateOneViaPerClaim`)
adopts `NEW` from the pad in step (a); the source's via step skips step
(a) entirely, finds nothing in the rename map, leaves the via on `OLD`
and emits the warning — the two outcomes differ in both the track's net
and the warning counter. -/
theorem c6_counterexample :
    ((updateOneVia c6Opts [] (initState c6Board) 0).board.tracks.map
        Track.netname = ["OLD"]) ∧
    ((updateOneVia c6Opts [] (initState c6Board) 0).warningCount = 1) ∧
    ((updateOneViaPerClaim c6Opts [] [(1, 0)]
        (initState c6Board) 0).board.tracks.map Track.netname = ["NEW"]) ∧
    ((updateOneViaPerClaim c6Opts [] [(1, 0)]
        (initState c6Board) 0).warningCount = 0) := by
  decide

/-- **C6** (corrected): the three-step repair applies to zones only.
(1) The via step never consults the connected-pad snapshot: its result is
    invariant under an arbitrary replacement of the zone-connections
    cache.
(2) A stale via whose net misses the rename map goes straight to the
    warning: the net is left unchanged and the warning counter is
    incremented — no pad snapshot is tried first.
(3) A stale zone does try the snapshot first: when a cached connected pad
    carries a different (non-empty) net name, the zone is repaired from
    that pad (the Action message names the pad's net), regardless of the
    rename map. -/
theorem c6_zone_three_steps_vias_skip_cache :
    (∀ (opts : Options) (nlNames : List String) (st : UpdState) (vi : Nat)
        (cache : List (Nat × List PadRef)),
      updateOneVia opts nlNames
          { st with zoneConnectionsCache := cache } vi =
        { updateOneVia opts nlNames st vi with
          zoneConnectionsCache := cache }) ∧
    (∀ (opts : Options) (nlNames : List String) (st : UpdState) (vi : Nat)
        (via : Track),
      st.board.tracks.get? vi = some via →
      via.isVia = true →
      nlNames.contains via.netname = false →
      assocGet via.netname st.oldToNewNets = none →
      updateOneVia opts nlNames st vi =
        { st with
          report := st.report ++
            [(Severity.warning, Msg.viaUnknownNet via.netname)],
          warningCount := st.warningCount + 1 }) ∧
    (∀ (opts : Options) (nlNames : List String) (st : UpdState) (zi : Nat)
        (z : Zone) (l : List PadRef) (r : PadRef),
      st.board.zones.get? zi = some z →
      z.onCopper = true →
      z.ruleArea = false →
      nlNames.contains z.netname = false →
      assocGet zi st.zoneConnectionsCache = some l →
      l.find? (fun p => getNetname opts st p ≠ z.netname) = some r →
      getNetname opts st r ≠ "" →
      (Severity.action, Msg.reconnectZone z.netname (getNetname opts st r))
        ∈ (updateOneZone opts nlNames st zi).report) := by
  refine ⟨?_, ?_, ?_⟩
  · intro opts nlNames st vi cache
    simp only [updateOneVia]
    dsimp only [reportMsg, setTrackNetname, findNet]
    cases h : st.board.tracks.get? vi with
    | none => rfl
    | some via =>
        repeat' split
        all_goals rfl
  · intro opts nlNames st vi via hGet hVia hStale hMiss
    simp only [updateOneVia, hGet]
    rw [if_neg (by simp [hVia])]
    rw [if_neg (by rw [hStale]; exact Bool.false_ne_true)]
    simp only [hMiss]
    rw [if_neg (by simp)]
    rfl
  · intro opts nlNames st zi z l r hGet hCu hRA hStale hCache hFind hNZ
    simp only [updateOneZone, hGet]
    rw [if_neg (by simp [hCu, hRA])]
    rw [if_neg (by rw [hStale]; exact Bool.false_ne_true)]
    simp only [hCache, hFind]
    rw [if_neg hNZ, if_pos hNZ]
    repeat' split
    all_goals simp

theorem c6_witness :
    (updateOneVia c6Opts []
        { initState c6Board with zoneConnectionsCache := [(0, [(1, 0)])] } 0 =
      { updateOneVia c6Opts [] (initState c6Board) 0 with
        zoneConnectionsCache := [(0, [(1, 0)])] }) ∧
    (updateOneVia c6Opts [] (initState c6Board) 0 =
      { initState c6Board with
        report := (initState c6Board).report ++
          [(Severity.warning, Msg.viaUnknownNet "OLD")],
        warningCount := (initState c6Board).warningCount + 1 }) ∧
    ((Severity.action, Msg.reconnectZone "OLD" "NEW")
      ∈ (updateOneZone c6Opts [] c6ZState 0).report) := by
  obtain ⟨h1, h2, h3⟩ := c6_zone_three_steps_vias_skip_cache
  refine ⟨h1 c6Opts [] (initState c6Board) 0 [(0, [(1, 0)])], ?_, ?_⟩
  · exact h2 c6Opts [] (initState c6Board) 0 ⟨true, "OLD"⟩ rfl rfl rfl rfl
  · exact h3 c6Opts [] c6ZState 0 ⟨"OLD", true, false⟩ [(1, 0)] (1, 0)
      rfl rfl rfl rfl rfl (by decide) (by decide)

/-! ## C1: a dry run never touches the board

Every operation of the pass guards its board writes behind
`!m_isDryRun` (pad/footprint/zone/track edits, net marking) or stages
them in the transaction, which a dry run never pushes. -/

theorem board_reportTail (st : UpdState) (sev : Severity) (m : Msg) :
    (reportTail st sev m).board = st.board := rfl

theorem dryBoard_syncReferenceField (opts : Options) (fid : Nat)
    (c : Component) (st : UpdState) (hDry : opts.isDryRun = true) :
    (syncReferenceField opts fid c st).board = st.board := by
  simp only [syncReferenceField]
  repeat' split
  all_goals try rfl
  all_goals simp_all

theorem dryBoard_syncValueField (opts : Options) (fid : Nat)
    (c : Component) (st : UpdState) (hDry : opts.isDryRun = true) :
    (syncValueField opts fid c st).board = st.board := by
  simp only [syncValueField]
  repeat' split
  all_goals try rfl
  all_goals simp_all

theorem dryBoard_syncPathField (opts : Options) (fid : Nat)
    (c : Component) (st : UpdState) (hDry : opts.isDryRun = true) :
    (syncPathField opts fid c st).board = st.board := by
  simp only [syncPathField]
  repeat' split
  all_goals try rfl
  all_goals simp_all

theorem dryBoard_syncPropsField (opts : Options) (fid : Nat)
    (c : Component) (st : UpdState) (hDry : opts.isDryRun = true) :
    (syncPropsField opts fid c st).board = st.board := by
  simp only [syncPropsField]
  repeat' split
  all_goals try rfl
  all_goals simp_all

theorem dryBoard_syncBomAttrField (opts : Options) (fid : Nat)
    (c : Component) (st : UpdState) (hDry : opts.isDryRun = true) :
    (syncBomAttrField opts fid c st).board = st.board := by
  simp only [syncBomAttrField]
  repeat' split
  all_goals try rfl
  all_goals simp_all

theorem dryBoard_updateFootprintParameters (opts : Options) (fid : Nat)
    (c : Component) (st : UpdState) (hDry : opts.isDryRun = true) :
    (updateFootprintParameters opts fid c st).board = st.board := by
  simp only [updateFootprintParameters]
  rw [dryBoard_syncBomAttrField _ _ _ _ hDry,
    dryBoard_syncPropsField _ _ _ _ hDry,
    dryBoard_syncPathField _ _ _ _ hDry,
    dryBoard_syncValueField _ _ _ _ hDry,
    dryBoard_syncReferenceField _ _ _ _ hDry]

theorem dryBoard_syncPinMetaFields (opts : Options) (fid i : Nat)
    (pad : Pad) (pf pt : String) (st : UpdState)
    (hDry : opts.isDryRun = true) :
    (syncPinMetaFields opts fid i pad pf pt st).board = st.board := by
  simp only [syncPinMetaFields]
  repeat' split
  all_goals try rfl
  all_goals simp_all

theorem dryBoard_disconnectPadBranch (opts : Options) (fid i : Nat)
    (fref : String) (pad : Pad) (st : UpdState)
    (hDry : opts.isDryRun = true) :
    (disconnectPadBranch opts fid i fref pad st).board = st.board := by
  simp only [disconnectPadBranch]
  repeat' split
  all_goals try rfl
  all_goals simp_all

theorem dryBoard_connectPadBranch (opts : Options) (fid i : Nat)
    (fref : String) (pad : Pad) (netName : String) (netinfoFound : Bool)
    (st : UpdState) (hDry : opts.isDryRun = true) :
    (connectPadBranch opts fid i fref pad netName netinfoFound st).board =
      st.board := by
  simp only [connectPadBranch]
  repeat' split
  all_goals try rfl
  all_goals simp_all

theorem dryBoard_syncPadNetPart (opts : Options) (fid i : Nat)
    (fref : String) (pad : Pad) (net : ComponentNet) (st : UpdState)
    (hDry : opts.isDryRun = true) :
    (syncPadNetPart opts fid i fref pad net st).board = st.board := by
  simp only [syncPadNetPart]
  repeat' split
  all_goals first
    | rfl
    | exact dryBoard_disconnectPadBranch _ _ _ _ _ _ hDry
    | exact dryBoard_connectPadBranch _ _ _ _ _ _ _ _ hDry
    | simp_all

theorem dryBoard_syncOnePad (opts : Options) (fid : Nat) (c : Component)
    (st : UpdState) (i : Nat) (hDry : opts.isDryRun = true) :
    (syncOnePad opts fid c st i).board = st.board := by
  simp only [syncOnePad]
  repeat' split
  all_goals try rfl
  all_goals rw [dryBoard_syncPadNetPart _ _ _ _ _ _ _ hDry,
    dryBoard_syncPinMetaFields _ _ _ _ _ _ _ hDry]

theorem dryBoard_updateComponentPadConnections (opts : Options) (fid : Nat)
    (c : Component) (st : UpdState) (hDry : opts.isDryRun = true) :
    (updateComponentPadConnections opts fid c st).board = st.board := by
  simp only [updateComponentPadConnections]
  split
  · rfl
  · exact foldl_invariant _ (fun (s : UpdState) => s.board = st.board) _ _ rfl
      (fun s i hs => (dryBoard_syncOnePad opts fid c s i hDry).trans hs)

theorem boardEq_addNewComponent (opts : Options) (deps : Deps)
    (c : Component) (st : UpdState) :
    (addNewComponent opts deps c st).snd.board = st.board := by
  simp only [addNewComponent]
  repeat' split
  all_goals rfl

theorem boardEq_replaceComponent (opts : Options) (deps : Deps)
    (old : Footprint) (c : Component) (st : UpdState) :
    (replaceComponent opts deps old c st).snd.board = st.board := by
  simp only [replaceComponent, exchangeFootprint]
  repeat' split
  all_goals rfl

theorem dryBoard_applyComponentUpdates (opts : Options) (idx : Nat)
    (c : Component) (tmp : Option Nat) (st : UpdState)
    (hDry : opts.isDryRun = true) :
    (applyComponentUpdates opts idx c tmp st).board = st.board := by
  cases tmp with
  | none => rfl
  | some fid =>
      simp only [applyComponentUpdates]
      rw [dryBoard_updateComponentPadConnections _ _ _ _ hDry,
        dryBoard_updateFootprintParameters _ _ _ _ hDry]

theorem dryBoard_matchScanStep (opts : Options) (deps : Deps) (idx : Nat)
    (c : Component) (acc : Nat × UpdState) (i : Nat)
    (hDry : opts.isDryRun = true) :
    (matchScanStep opts deps idx c acc i).snd.board = acc.snd.board := by
  simp only [matchScanStep]
  split
  · rfl
  · split
    · split
      · dsimp only
        rw [dryBoard_applyComponentUpdates _ _ _ _ _ hDry,
          boardEq_replaceComponent]
      · dsimp only
        rw [dryBoard_applyComponentUpdates _ _ _ _ _ hDry]
    · rfl

theorem dryBoard_scanFold (opts : Options) (deps : Deps) (idx : Nat)
    (c : Component) (l : List Nat) (n : Nat) (st : UpdState)
    (hDry : opts.isDryRun = true) :
    (l.foldl (matchScanStep opts deps idx c) (n, st)).snd.board =
      st.board := by
  refine foldl_invariant _
    (fun (acc : Nat × UpdState) => acc.snd.board = st.board) _ _ rfl ?_
  intro s a hs
  rw [dryBoard_matchScanStep _ _ _ _ _ _ hDry]
  exact hs

theorem dryBoard_processComponent (opts : Options) (deps : Deps)
    (boundary : Option Nat) (st : UpdState) (ic : Nat × Component)
    (hDry : opts.isDryRun = true) :
    (processComponent opts deps boundary st ic).board = st.board := by
  simp only [processComponent]
  split
  · rfl
  · split
    · rw [dryBoard_applyComponentUpdates _ _ _ _ _ hDry,
        boardEq_addNewComponent]
      exact dryBoard_scanFold _ _ _ _ _ _ _ hDry
    · split
      · rw [board_reportMsg]
        exact dryBoard_scanFold _ _ _ _ _ _ _ hDry
      · exact dryBoard_scanFold _ _ _ _ _ _ _ hDry

theorem dryBoard_componentLoop (opts : Options) (deps : Deps)
    (boundary : Option Nat) (netlist : List Component) (st : UpdState)
    (hDry : opts.isDryRun = true) :
    (componentLoop opts deps boundary netlist st).board = st.board := by
  refine foldl_invariant _ (fun (s : UpdState) => s.board = st.board) _ _ rfl ?_
  intro s a hs
  rw [dryBoard_processComponent _ _ _ _ _ hDry]
  exact hs

theorem dryBoard_updateOneVia (opts : Options) (nlNames : List String)
    (st : UpdState) (vi : Nat) (hDry : opts.isDryRun = true) :
    (updateOneVia opts nlNames st vi).board = st.board := by
  simp only [updateOneVia]
  repeat' split
  all_goals try rfl
  all_goals simp_all

theorem dryBoard_updateOneZone (opts : Options) (nlNames : List String)
    (st : UpdState) (zi : Nat) (hDry : opts.isDryRun = true) :
    (updateOneZone opts nlNames st zi).board = st.board := by
  simp only [updateOneZone]
  repeat' split
  all_goals try rfl
  all_goals simp_all

theorem dryBoard_updateCopperZoneNets (opts : Options)
    (netlist : List Component) (st : UpdState)
    (hDry : opts.isDryRun = true) :
    (updateCopperZoneNets opts netlist st).board = st.board := by
  simp only [updateCopperZoneNets]
  have h1 : ∀ (l : List Nat) (s : UpdState),
      (l.foldl (updateOneVia opts (netlistNetnames netlist)) s).board =
        s.board := by
    intro l s
    refine foldl_invariant _ (fun (x : UpdState) => x.board = s.board) _ _ rfl ?_
    intro x a hx
    rw [dryBoard_updateOneVia _ _ _ _ hDry]
    exact hx
  have h2 : ∀ (l : List Nat) (s : UpdState),
      (l.foldl (updateOneZone opts (netlistNetnames netlist)) s).board =
        s.board := by
    intro l s
    refine foldl_invariant _ (fun (x : UpdState) => x.board = s.board) _ _ rfl ?_
    intro x a hx
    rw [dryBoard_updateOneZone _ _ _ _ hDry]
    exact hx
  rw [h2, h1]

theorem dryBoard_sweepOneFootprint (opts : Options)
    (netlist : List Component) (st : UpdState) (f : Footprint)
    (hDry : opts.isDryRun = true) :
    (sweepOneFootprint opts netlist st f).board = st.board := by
  simp only [sweepOneFootprint]
  repeat' split
  all_goals try rfl
  all_goals simp_all

theorem dryBoard_sweepFold (opts : Options) (netlist : List Component)
    (l : List Footprint) (st : UpdState) (hDry : opts.isDryRun = true) :
    (l.foldl (sweepOneFootprint opts netlist) st).board = st.board := by
  refine foldl_invariant _ (fun (s : UpdState) => s.board = st.board) _ _ rfl ?_
  intro s a hs
  rw [dryBoard_sweepOneFootprint _ _ _ _ hDry]
  exact hs

theorem dryBoard_pruneStep (opts : Options) (acc : PruneAcc) (r : PadRef)
    (hDry : opts.isDryRun = true) :
    (pruneStep opts acc r).st.board = acc.st.board := by
  simp only [pruneStep]
  repeat' split
  all_goals try rfl
  all_goals simp_all

theorem dryBoard_deleteSinglePadNets (opts : Options) (st : UpdState)
    (hDry : opts.isDryRun = true) :
    (deleteSinglePadNets opts st).board = st.board := by
  simp only [deleteSinglePadNets]
  have hfold : ∀ (l : List PadRef) (a : PruneAcc),
      (l.foldl (pruneStep opts) a).st.board = a.st.board := by
    intro l a
    refine foldl_invariant _ (fun (x : PruneAcc) => x.st.board = a.st.board) _ _ rfl ?_
    intro x p hx
    rw [dryBoard_pruneStep _ _ _ hDry]
    exact hx
  repeat' split
  all_goals try exact hfold _ _
  all_goals simp_all [hfold]

theorem dryBoard_finalizeUpdate (opts : Options) (netlist : List Component)
    (st : UpdState) (hDry : opts.isDryRun = true) :
    (finalizeUpdate opts netlist st).board = st.board := by
  simp only [finalizeUpdate]
  repeat' split
  all_goals try rfl
  all_goals try exact dryBoard_deleteSinglePadNets _ _ hDry
  all_goals simp_all

set_option maxHeartbeats 1000000 in
/-- **C1** (confirmed): a dry run returns the board exactly as it was —
every footprint (with its pads), every net-registry entry, every zone and
every track is unchanged; the pass only produces report entries, counters
and its internal shadow caches. -/
theorem c1_dry_run_preserves_board (opts : Options) (deps : Deps)
    (board : Board) (netlist : List Component)
    (hDry : opts.isDryRun = true) :
    (UpdateNetlist opts deps board netlist).board = board := by
  simp only [UpdateNetlist]
  rw [if_neg (show ¬((!opts.isDryRun) = true) by simp [hDry])]
  rw [if_pos (show opts.isDryRun = true from hDry)]
  rw [board_reportTail, board_reportTail, board_reportTail]
  show (finalizeUpdate opts netlist _).board = board
  rw [dryBoard_finalizeUpdate _ _ _ hDry, dryBoard_sweepFold _ _ _ _ hDry,
    dryBoard_updateCopperZoneNets _ _ _ hDry,
    dryBoard_componentLoop _ _ _ _ _ hDry]
  rfl

def c1Board : Board :=
  ⟨[⟨1, "R1", "V", "P1", "L:F", [], false, false, false,
     [⟨"1", "", "", "N", true, false⟩], (0, 0)⟩],
   [⟨"", true⟩, ⟨"N", true⟩], [⟨"N", true, false⟩], [⟨true, "N"⟩]⟩
def c1Component : Component := ⟨"R1", "V2", "P1", "L:F", [], [⟨"1", "M", "", ""⟩]⟩
def c1Opts : Options := ⟨true, true, true, true, false, false⟩
def c1Deps : Deps := ⟨fun _ => none, fun _ => [(1, 0)], true, true, 0, 0, 0, 0, 100, 100⟩

theorem c1_witness :
    (UpdateNetlist c1Opts c1Deps c1Board [c1Component]).board = c1Board :=
  c1_dry_run_preserves_board c1Opts c1Deps c1Board [c1Component] rfl

/-! ## C2: the final registry after a commit pass

Every net that survives `RemoveUnusedNets` is current, every net staged
during the pass enters the registry as current, and the unconnected
sentinel entry (name `""`, always current) is preserved by every
operation of the pass. -/

/-- The unconnected sentinel registry entry (net code 0). -/
def sentinelNet : Net := ⟨"", true⟩

theorem netsEq_syncReferenceField (opts : Options) (fid : Nat)
    (c : Component) (st : UpdState) :
    (syncReferenceField opts fid c st).board.nets = st.board.nets := by
  simp only [syncReferenceField]
  repeat' split
  all_goals rfl

theorem netsEq_syncValueField (opts : Options) (fid : Nat)
    (c : Component) (st : UpdState) :
    (syncValueField opts fid c st).board.nets = st.board.nets := by
  simp only [syncValueField]
  repeat' split
  all_goals rfl

theorem netsEq_syncPathField (opts : Options) (fid : Nat)
    (c : Component) (st : UpdState) :
    (syncPathField opts fid c st).board.nets = st.board.nets := by
  simp only [syncPathField]
  repeat' split
  all_goals rfl

theorem netsEq_syncPropsField (opts : Options) (fid : Nat)
    (c : Component) (st : UpdState) :
    (syncPropsField opts fid c st).board.nets = st.board.nets := by
  simp only [syncPropsField]
  repeat' split
  all_goals rfl

theorem netsEq_syncBomAttrField (opts : Options) (fid : Nat)
    (c : Component) (st : UpdState) :
    (syncBomAttrField opts fid c st).board.nets = st.board.nets := by
  simp only [syncBomAttrField]
  repeat' split
  all_goals rfl

theorem netsEq_updateFootprintParameters (opts : Options) (fid : Nat)
    (c : Component) (st : UpdState) :
    (updateFootprintParameters opts fid c st).board.nets = st.board.nets := by
  simp only [updateFootprintParameters]
  rw [netsEq_syncBomAttrField, netsEq_syncPropsField, netsEq_syncPathField,
    netsEq_syncValueField, netsEq_syncReferenceField]

theorem netsEq_syncPinMetaFields (opts : Options) (fid i : Nat) (pad : Pad)
    (pf pt : String) (st : UpdState) :
    (syncPinMetaFields opts fid i pad pf pt st).board.nets =
      st.board.nets := by
  simp only [syncPinMetaFields]
  repeat' split
  all_goals rfl

theorem netsEq_disconnectPadBranch (opts : Options) (fid i : Nat)
    (fref : String) (pad : Pad) (st : UpdState) :
    (disconnectPadBranch opts fid i fref pad st).board.nets =
      st.board.nets := by
  simp only [disconnectPadBranch]
  repeat' split
  all_goals rfl

theorem netsEq_connectPadBranch (opts : Options) (fid i : Nat)
    (fref : String) (pad : Pad) (netName : String) (netinfoFound : Bool)
    (st : UpdState) :
    (connectPadBranch opts fid i fref pad netName netinfoFound st).board.nets
      = st.board.nets := by
  simp only [connectPadBranch]
  repeat' split
  all_goals rfl

theorem sentinel_markNetCurrent (b : Board) (n : String)
    (h : sentinelNet ∈ b.nets) : sentinelNet ∈ (markNetCurrent b n).nets := by
  simp only [markNetCurrent]
  have he : (fun x => if x.name = n then { x with isCurrent := true } else x)
      sentinelNet = sentinelNet := by
    by_cases hn : ("" : String) = n
    · simp [sentinelNet, hn]
    · simp [sentinelNet, hn]
  rw [← he]
  exact List.mem_map_of_mem _ h

theorem sentinelMem_syncPadNetPart (opts : Options) (fid i : Nat)
    (fref : String) (pad : Pad) (net : ComponentNet) (st : UpdState)
    (h : sentinelNet ∈ st.board.nets) :
    sentinelNet ∈ (syncPadNetPart opts fid i fref pad net st).board.nets := by
  simp only [syncPadNetPart]
  repeat' split
  all_goals try (rw [netsEq_disconnectPadBranch]; exact h)
  all_goals try (rw [netsEq_connectPadBranch]; first
    | exact h
    | exact sentinel_markNetCurrent _ _ h)
  all_goals try exact h
  all_goals exact sentinel_markNetCurrent _ _ h

theorem sentinelMem_syncOnePad (opts : Options) (fid : Nat) (c : Component)
    (st : UpdState) (i : Nat) (h : sentinelNet ∈ st.board.nets) :
    sentinelNet ∈ (syncOnePad opts fid c st i).board.nets := by
  simp only [syncOnePad]
  repeat' split
  all_goals try exact h
  all_goals refine sentinelMem_syncPadNetPart _ _ _ _ _ _ _ ?_
  all_goals rw [netsEq_syncPinMetaFields]
  all_goals exact h

theorem sentinelMem_updateComponentPadConnections (opts : Options)
    (fid : Nat) (c : Component) (st : UpdState)
    (h : sentinelNet ∈ st.board.nets) :
    sentinelNet ∈
      (updateComponentPadConnections opts fid c st).board.nets := by
  simp only [updateComponentPadConnections]
  split
  · exact h
  · exact foldl_invariant _
      (fun (s : UpdState) => sentinelNet ∈ s.board.nets) _ _ h
      (fun s i hs => sentinelMem_syncOnePad opts fid c s i hs)

theorem sentinelMem_applyComponentUpdates (opts : Options) (idx : Nat)
    (c : Component) (tmp : Option Nat) (st : UpdState)
    (h : sentinelNet ∈ st.board.nets) :
    sentinelNet ∈ (applyComponentUpdates opts idx c tmp st).board.nets := by
  cases tmp with
  | none => exact h
  | some fid =>
      simp only [applyComponentUpdates]
      refine sentinelMem_updateComponentPadConnections _ _ _ _ ?_
      rw [netsEq_updateFootprintParameters]
      exact h

theorem sentinelMem_matchScanStep (opts : Options) (deps : Deps) (idx : Nat)
    (c : Component) (acc : Nat × UpdState) (i : Nat)
    (h : sentinelNet ∈ acc.snd.board.nets) :
    sentinelNet ∈ (matchScanStep opts deps idx c acc i).snd.board.nets := by
  simp only [matchScanStep]
  split
  · exact h
  · split
    · split
      · dsimp only
        refine sentinelMem_applyComponentUpdates _ _ _ _ _ ?_
        rw [boardEq_replaceComponent]
        exact h
      · dsimp only
        exact sentinelMem_applyComponentUpdates _ _ _ _ _ h
    · exact h

theorem sentinelMem_processComponent (opts : Options) (deps : Deps)
    (boundary : Option Nat) (st : UpdState) (ic : Nat × Component)
    (h : sentinelNet ∈ st.board.nets) :
    sentinelNet ∈ (processComponent opts deps boundary st ic).board.nets := by
  simp only [processComponent]
  have hfold : ∀ (l : List Nat) (n : Nat) (s : UpdState),
      sentinelNet ∈ s.board.nets →
      sentinelNet ∈
        (l.foldl (matchScanStep opts deps ic.fst ic.snd) (n, s)).snd.board.nets := by
    intro l n s hs
    refine foldl_invariant _
      (fun (a : Nat × UpdState) => sentinelNet ∈ a.snd.board.nets) _ _ hs ?_
    intro a j ha
    exact sentinelMem_matchScanStep _ _ _ _ _ _ ha
  split
  · exact h
  · split
    · refine sentinelMem_applyComponentUpdates _ _ _ _ _ ?_
      rw [boardEq_addNewComponent]
      exact hfold _ _ _ h
    · split
      · rw [board_reportMsg]
        exact hfold _ _ _ h
      · exact hfold _ _ _ h

theorem sentinelMem_componentLoop (opts : Options) (deps : Deps)
    (boundary : Option Nat) (netlist : List Component) (st : UpdState)
    (h : sentinelNet ∈ st.board.nets) :
    sentinelNet ∈
      (componentLoop opts deps boundary netlist st).board.nets := by
  refine foldl_invariant _
    (fun (s : UpdState) => sentinelNet ∈ s.board.nets) _ _ h ?_
  intro s a hs
  exact sentinelMem_processComponent _ _ _ _ _ hs

theorem netsEq_updateOneVia (opts : Options) (nlNames : List String)
    (st : UpdState) (vi : Nat) :
    (updateOneVia opts nlNames st vi).board.nets = st.board.nets := by
  simp only [updateOneVia]
  repeat' split
  all_goals rfl

theorem netsEq_updateOneZone (opts : Options) (nlNames : List String)
    (st : UpdState) (zi : Nat) :
    (updateOneZone opts nlNames st zi).board.nets = st.board.nets := by
  simp only [updateOneZone]
  repeat' split
  all_goals rfl

theorem netsEq_updateCopperZoneNets (opts : Options)
    (netlist : List Component) (st : UpdState) :
    (updateCopperZoneNets opts netlist st).board.nets = st.board.nets := by
  simp only [updateCopperZoneNets]
  have h1 : ∀ (l : List Nat) (s : UpdState),
      (l.foldl (updateOneVia opts (netlistNetnames netlist)) s).board.nets =
        s.board.nets := by
    intro l s
    refine foldl_invariant _
      (fun (x : UpdState) => x.board.nets = s.board.nets) _ _ rfl ?_
    intro x a hx
    rw [netsEq_updateOneVia]
    exact hx
  have h2 : ∀ (l : List Nat) (s : UpdState),
      (l.foldl (updateOneZone opts (netlistNetnames netlist)) s).board.nets =
        s.board.nets := by
    intro l s
    refine foldl_invariant _
      (fun (x : UpdState) => x.board.nets = s.board.nets) _ _ rfl ?_
    intro x a hx
    rw [netsEq_updateOneZone]
    exact hx
  rw [h2, h1]

theorem sentinel_markFold (pads : List Pad) (b : Board)
    (h : sentinelNet ∈ b.nets) :
    sentinelNet ∈
      (pads.foldl (fun b p => markNetCurrent b p.netname) b).nets :=
  foldl_invariant _ (fun (x : Board) => sentinelNet ∈ x.nets) _ _ h
    (fun x p hx => sentinel_markNetCurrent _ _ hx)

theorem sentinelMem_sweepOneFootprint (opts : Options)
    (netlist : List Component) (st : UpdState) (f : Footprint)
    (h : sentinelNet ∈ st.board.nets) :
    sentinelNet ∈ (sweepOneFootprint opts netlist st f).board.nets := by
  simp only [sweepOneFootprint]
  repeat' split
  all_goals try exact h
  all_goals exact sentinel_markFold _ _ h

theorem sentinelMem_sweepFold (opts : Options) (netlist : List Component)
    (l : List Footprint) (st : UpdState)
    (h : sentinelNet ∈ st.board.nets) :
    sentinelNet ∈
      (l.foldl (sweepOneFootprint opts netlist) st).board.nets := by
  refine foldl_invariant _
    (fun (s : UpdState) => sentinelNet ∈ s.board.nets) _ _ h ?_
  intro s a hs
  exact sentinelMem_sweepOneFootprint _ _ _ _ hs

theorem boardEq_testConnectivity (netlist : List Component) (st : UpdState) :
    (testConnectivity netlist st).board = st.board := by
  simp only [testConnectivity]
  refine foldl_invariant _ (fun (s : UpdState) => s.board = st.board) _ _
    rfl ?_
  intro s ic hs
  split
  · exact hs
  · split
    · exact hs
    · refine foldl_invariant _ (fun (x : UpdState) => x.board = st.board)
        _ _ hs ?_
      intro x pin hx
      split
      · exact hx
      · exact hx

theorem netsEq_pruneStep (opts : Options) (acc : PruneAcc) (r : PadRef) :
    (pruneStep opts acc r).st.board.nets = acc.st.board.nets := by
  simp only [pruneStep]
  repeat' split
  all_goals rfl

theorem netsEq_deleteSinglePadNets (opts : Options) (st : UpdState) :
    (deleteSinglePadNets opts st).board.nets = st.board.nets := by
  simp only [deleteSinglePadNets]
  have hfold : ∀ (l : List PadRef) (a : PruneAcc),
      (l.foldl (pruneStep opts) a).st.board.nets = a.st.board.nets := by
    intro l a
    refine foldl_invariant _
      (fun (x : PruneAcc) => x.st.board.nets = a.st.board.nets) _ _ rfl ?_
    intro x p hx
    rw [netsEq_pruneStep]
    exact hx
  repeat' split
  all_goals try exact hfold _ _
  all_goals simp [hfold]

theorem sentinel_markAllNetsStale (st : UpdState)
    (h : sentinelNet ∈ st.board.nets) :
    sentinelNet ∈ (markAllNetsStale st).board.nets := by
  simp only [markAllNetsStale]
  have he : (fun (n : Net) => { n with isCurrent := n.name = "" })
      sentinelNet = sentinelNet := by decide
  rw [← he]
  exact List.mem_map_of_mem _ h

theorem finalize_nets_current (opts : Options) (netlist : List Component)
    (st : UpdState) (hDry : opts.isDryRun = false) :
    ∀ n ∈ (finalizeUpdate opts netlist st).board.nets,
      n.isCurrent = true := by
  have hDryB : (!opts.isDryRun) = true := by rw [hDry]; rfl
  simp only [finalizeUpdate, hDryB, if_true]
  intro n hn
  rcases List.mem_append.mp hn with h | h
  · exact (List.mem_filter.mp h).2
  · rcases List.mem_map.mp h with ⟨a, _, hEq⟩
    rw [← hEq]

theorem sentinelMem_finalizeUpdate (opts : Options)
    (netlist : List Component) (st : UpdState)
    (hDry : opts.isDryRun = false) (h : sentinelNet ∈ st.board.nets) :
    sentinelNet ∈ (finalizeUpdate opts netlist st).board.nets := by
  have hDryB : (!opts.isDryRun) = true := by rw [hDry]; rfl
  simp only [finalizeUpdate, hDryB, if_true]
  refine List.mem_append_left _ (List.mem_filter.mpr ⟨?_, rfl⟩)
  have h1 : sentinelNet ∈ (testConnectivity netlist st).board.nets := by
    rw [boardEq_testConnectivity]
    exact h
  have h2 : sentinelNet ∈
      ((if opts.deleteSinglePadNets = true then
        deleteSinglePadNets opts (testConnectivity netlist st)
      else testConnectivity netlist st)).board.nets := by
    split
    · rw [netsEq_deleteSinglePadNets]
      exact h1
    · exact h1
  rw [(reportStaleNets_frame _).1]
  exact h2

set_option maxHeartbeats 1000000 in
/-- **C2** (corrected): after a committing pass, every entry of the final
net registry is current (stale entries are removed, staged additions enter
as current), and the unconnected sentinel entry (name `""`, current) is
never removed and stays current.  The original claim's other direction is
false — a retained net need not be bound to any pad (see the
counterexample, where the single-pad prune clears a net's last pad after
the net has been marked current). -/
theorem c2_registry_current_and_sentinel_kept (opts : Options) (deps : Deps)
    (board : Board) (netlist : List Component)
    (hDry : opts.isDryRun = false)
    (hSent : sentinelNet ∈ board.nets) :
    (∀ n ∈ (UpdateNetlist opts deps board netlist).board.nets,
      n.isCurrent = true) ∧
    sentinelNet ∈ (UpdateNetlist opts deps board netlist).board.nets := by
  simp only [UpdateNetlist]
  rw [if_neg (show ¬((opts.isDryRun) = true) by rw [hDry]; exact Bool.false_ne_true),
    if_pos (show (!opts.isDryRun) = true by rw [hDry]; rfl)]
  rw [board_reportTail, board_reportTail, board_reportTail]
  constructor
  · exact fun n hn => finalize_nets_current opts netlist _ hDry n hn
  · refine sentinelMem_finalizeUpdate opts netlist _ hDry ?_
    refine sentinelMem_sweepFold _ _ _ _ ?_
    rw [netsEq_updateCopperZoneNets]
    refine sentinelMem_componentLoop _ _ _ _ _ ?_
    exact sentinel_markAllNetsStale _ hSent

def c2aBoard : Board :=
  ⟨[⟨1, "R1", "V", "P1", "L:F", [],
     false, false, false, [⟨"1", "", "", "N", true, false⟩], (0, 0)⟩],
   [⟨"", true⟩, ⟨"N", true⟩, ⟨"DEAD", true⟩], [], []⟩
def c2aComponent : Component := ⟨"R1", "V", "P1", "L:F", [], [⟨"1", "N", "", ""⟩]⟩
def c2aOpts : Options := ⟨false, false, false, false, false, false⟩
def c2aDeps : Deps := ⟨fun _ => none, fun _ => [], true, true, 0, 0, 0, 0, 100, 100⟩

theorem c2_witness :
    (∀ n ∈ (UpdateNetlist c2aOpts c2aDeps c2aBoard
        [c2aComponent]).board.nets, n.isCurrent = true) ∧
    sentinelNet ∈ (UpdateNetlist c2aOpts c2aDeps c2aBoard
        [c2aComponent]).board.nets :=
  c2_registry_current_and_sentinel_kept c2aOpts c2aDeps c2aBoard
    [c2aComponent] rfl (by decide)

/-! ## C3 machinery: the exact pad values a committing pad sync leaves -/

theorem set_get_self {α : Type} (l : List α) (i : Nat) (x : α)
    (h : l.get? i = some x) : l.set i x = l := by
  induction l generalizing i with
  | nil => simp at h
  | cons a t ih =>
      cases i with
      | zero =>
          have ha : a = x := by simpa using h
          rw [List.set_cons_zero, ← ha]
      | succ n =>
          have h2 : t.get? n = some x := h
          rw [List.set_cons_succ, ih n h2]

theorem mapIdx_const_id {α : Type} (l : List α) :
    l.mapIdx (fun _ p => p) = l := by
  induction l with
  | nil => rfl
  | cons a t ih =>
      rw [List.mapIdx_cons]
      rw [ih]

theorem mapIdx_ite_eq_set {g : Pad → Pad} (l : List Pad) (i : Nat) (x : Pad)
    (h : l.get? i = some x) :
    l.mapIdx (fun j p => if j = i then g p else p) = l.set i (g x) := by
  induction l generalizing i with
  | nil => simp at h
  | cons a t ih =>
      cases i with
      | zero =>
          have ha : a = x := by simpa using h
          rw [List.mapIdx_cons, List.set_cons_zero, ← ha]
          simp only [eq_self_iff_true, if_true]
          have ht : (t.mapIdx fun j p => if j + 1 = 0 then g p else p) = t := by
            have : (fun (j : Nat) (p : Pad) => if j + 1 = 0 then g p else p) =
                fun _ p => p := by
              funext j p
              simp
            rw [this, mapIdx_const_id]
          rw [ht]
      | succ n =>
          have h2 : t.get? n = some x := h
          rw [List.mapIdx_cons, List.set_cons_succ]
          have hz : (if (0 : Nat) = n + 1 then g a else a) = a := by simp
          rw [hz]
          have hf : (fun (j : Nat) (p : Pad) => if j + 1 = n + 1 then g p else p)
              = fun j p => if j = n then g p else p := by
            funext j p
            simp
          rw [hf, ih n h2]

theorem withPadNetname_self (p : Pad) (v : String) (h : p.netname = v) :
    ({ p with netname := v } : Pad) = p := by
  rw [← h]

theorem withPadPinFunction_self (p : Pad) (v : String)
    (h : p.pinFunction = v) : ({ p with pinFunction := v } : Pad) = p := by
  rw [← h]

theorem withPadPinType_self (p : Pad) (v : String) (h : p.pinType = v) :
    ({ p with pinType := v } : Pad) = p := by
  rw [← h]

/-- The pin-function value the pad sync computes for a pad. -/
def padPinFunctionFor (c : Component) (p : Pad) : String :=
  if (compGetNet c p.name).pinName ≠ "" then (compGetNet c p.name).pinFunction
  else ""

/-- The pin-type value the pad sync computes for a pad. -/
def padPinTypeFor (c : Component) (p : Pad) : String :=
  if (compGetNet c p.name).pinName ≠ "" then (compGetNet c p.name).pinType
  else ""

/-- The net name the pad-connection sync leaves on a pad. -/
def syncedNetname (c : Component) (p : Pad) : String :=
  if (compGetNet c p.name).pinName = "" ∨ !p.onCopper then ""
  else (compGetNet c p.name).netName

/-- The exact value a committing `syncOnePad` leaves at the pad's
position. -/
def syncedPad (c : Component) (p : Pad) : Pad :=
  { p with
    pinFunction :=
      if (compGetNet c p.name).pinName = "" ∨ !p.onCopper then ""
      else padPinFunctionFor c p
    pinType := padPinTypeFor c p
    netname := syncedNetname c p }

/-- The exact footprint value the per-component update leaves at a matched
position in a committing run. -/
def fullSync (c : Component) (f : Footprint) : Footprint :=
  { metaApply c f with pads := f.pads.map (syncedPad c) }

theorem get?_modifyPad_set (st : UpdState) (fid i : Nat) (g : Pad → Pad)
    (k : Nat) (f : Footprint) (q : Pad)
    (hfid : f.id = fid)
    (hGk : st.board.footprints.get? k = some f)
    (hqi : f.pads.get? i = some q) :
    (modifyPad st fid i g).board.footprints.get? k =
      some { f with pads := f.pads.set i (g q) } := by
  rw [get?_modifyPad, hGk]
  simp only [Option.map_some', hfid, if_true, eq_self_iff_true]
  rw [mapIdx_ite_eq_set _ _ _ hqi]

theorem get?_modifyPad2_set (st : UpdState) (fid i : Nat)
    (g1 g2 : Pad → Pad) (k : Nat) (f : Footprint) (q : Pad)
    (hfid : f.id = fid)
    (hGk : st.board.footprints.get? k = some f)
    (hqi : f.pads.get? i = some q) :
    (modifyPad (modifyPad st fid i g1) fid i g2).board.footprints.get? k =
      some { f with pads := f.pads.set i (g2 (g1 q)) } := by
  have hlt : i < f.pads.length := by
    by_contra hle
    rw [List.get?_eq_none.mpr (Nat.le_of_not_lt hle)] at hqi
    exact Option.noConfusion hqi
  have h1 := get?_modifyPad_set st fid i g1 k f q hfid hGk hqi
  have h2 := get?_modifyPad_set (modifyPad st fid i g1) fid i g2 k
    { f with pads := f.pads.set i (g1 q) } (g1 q) hfid h1
    (List.get?_set_eq_of_lt (g1 q) hlt)
  rw [h2, List.set_set]

end KicadNetlist
